import Mathlib

/-!
# Verification of the two-level cache-hierarchy simulator (`src/cache.c`)

This file gives a shallow embedding of the simulator: the configuration
globals, the statistics counters, the per-set tag/LRU arrays, and the three
access functions `icache_access`, `dcache_access`, `l2cache_access`, plus
`init_cache`.  Machine `uint32_t` arithmetic is modelled on `Nat` with
explicit `% 2^32` at the points where the C code can wrap (LRU increments,
latency additions, the evicted-address reconstruction).  The C `log2` call
(from `math.h`, exact on the power-of-two inputs the simulator is configured
with) is modelled by a structural base-2 logarithm `log2` below.
-/

namespace CacheSim

/-- `UINT32_MAX`, the sentinel recency value used for forced invalidation. -/
def UINT32_MAX : Nat := 4294967295

/-- `2^32`, the wrap-around modulus of `uint32_t` arithmetic. -/
def U32 : Nat := 4294967296

/-- Fuel-driven floor base-2 logarithm (structural, so it reduces in the
kernel).  `log2fuel f n` equals `⌊log₂ n⌋` whenever `n < 2^f`. -/
def log2fuel : Nat → Nat → Nat
  | 0, _ => 0
  | f + 1, n => if 2 ≤ n then log2fuel f (n / 2) + 1 else 0

/-- Model of the C `log2` applied to a `uint32_t` value: exact floor base-2
logarithm for all inputs `< 2^32` (the C call goes through `double`, which is
exact on every power of two and truncates to the floor otherwise). -/
def log2 (n : Nat) : Nat := log2fuel 32 n

/-- Address decoding, index part: `(addr >> log2 blocksize) & (sets - 1)`
(lines 137–138, 226–227, 318–319 of `cache.c`). -/
def decodeIndex (bs sets addr : Nat) : Nat :=
  Nat.land (addr >>> log2 bs) (sets - 1)

/-- Address decoding, tag part with the valid flag ORed in:
`((addr >> log2 blocksize) >> log2 sets) | 0x80000000`
(lines 141–144, 230–233, 322–325 of `cache.c`). -/
def decodeTag (bs sets addr : Nat) : Nat :=
  Nat.lor ((addr >>> log2 bs) >>> log2 sets) 0x80000000

/-- The evicted-address reconstruction of the L2 miss path (lines 362–363):
`((storedTag << log2 bs) << log2 sets) | (way << log2 bs)`, each `uint32_t`
shift wrapping modulo `2^32`.  Note the C code passes the victim *way*
number as `way` here. -/
def reconstructAddr (bs sets storedTag way : Nat) : Nat :=
  Nat.lor ((((storedTag <<< log2 bs) % U32) <<< log2 sets) % U32)
    ((way <<< log2 bs) % U32)

/-- The tag-probe loop: first way `i < assoc` with `tags[i] == tag`
(lines 148–149, 237–238, 329–330).  `hitWayAux tags tag n i` scans ways
`i, i+1, …, i+n-1`. -/
def hitWayAux (tags : List Nat) (tag : Nat) : Nat → Nat → Option Nat
  | 0, _ => none
  | n + 1, i => if tags.getD i 0 == tag then some i else hitWayAux tags tag n (i + 1)

/-- First hit way in a set of `assoc` ways, if any. -/
def hitWay (assoc : Nat) (tags : List Nat) (tag : Nat) : Option Nat :=
  hitWayAux tags tag assoc 0

/-- The victim-search loop state machine (lines 168–180, 257–269, 347–357):
`victimAux lrus n i best largest` scans ways `i, …, i+n-1` keeping the first
way whose recency strictly exceeds every earlier one. -/
def victimAux (lrus : List Nat) : Nat → Nat → Nat → Nat → Nat
  | 0, _, best, _ => best
  | n + 1, i, best, largest =>
    if largest < lrus.getD i 0 then victimAux lrus n (i + 1) i (lrus.getD i 0)
    else victimAux lrus n (i + 1) best largest

/-- The eviction victim of a set: way with the strictly largest recency,
ties broken by first occurrence in scan order. -/
def findVictim (assoc : Nat) (lrus : List Nat) : Nat :=
  victimAux lrus assoc 0 0 0

/-- L1 recency aging: increment every counter that is not already the
invalid sentinel `UINT32_MAX` (lines 151–155, 177–179, 240–244, 266–268). -/
def bumpL1 (lrus : List Nat) : List Nat :=
  lrus.map (fun x => if x == UINT32_MAX then x else (x + 1) % U32)

/-- L2 recency aging: increment every counter unconditionally, wrapping as
`uint32_t` (lines 332–334 and 356). -/
def bumpL2 (lrus : List Nat) : List Nat :=
  lrus.map (fun x => (x + 1) % U32)

/-- Inclusion enforcement on a set's tag array: clear every way whose tag
matches the evicted tag (lines 199–205, 288–294). -/
def inclTags (tags : List Nat) (evictedTag : Nat) : List Nat :=
  tags.map (fun t => if t == evictedTag then 0 else t)

/-- Inclusion enforcement on a set's recency array: set the recency of every
cleared way to the sentinel `UINT32_MAX`. -/
def inclLrus (tags lrus : List Nat) (evictedTag : Nat) : List Nat :=
  List.zipWith (fun t r => if t == evictedTag then UINT32_MAX else r) tags lrus

/-- The configuration globals of `cache.c` (all `uint32_t`). -/
structure Config where
  icacheSets : Nat
  icacheAssoc : Nat
  icacheHitTime : Nat
  dcacheSets : Nat
  dcacheAssoc : Nat
  dcacheHitTime : Nat
  l2cacheSets : Nat
  l2cacheAssoc : Nat
  l2cacheHitTime : Nat
  inclusive : Nat
  blocksize : Nat
  memspeed : Nat
deriving DecidableEq

/-- The mutable globals of `cache.c`: statistics counters (`uint64_t`),
the transient L2 eviction signal, and the per-set tag/LRU storage of the
three caches (outer list indexed by set, inner list indexed by way). -/
structure CacheState where
  icacheRefs : Nat
  icacheMisses : Nat
  icachePenalties : Nat
  dcacheRefs : Nat
  dcacheMisses : Nat
  dcachePenalties : Nat
  l2cacheRefs : Nat
  l2cacheMisses : Nat
  l2cachePenalties : Nat
  l2_did_evict : Bool
  l2_evicted_addr : Nat
  l1i_tag_storage : List (List Nat)
  l1i_lru_storage : List (List Nat)
  l1d_tag_storage : List (List Nat)
  l1d_lru_storage : List (List Nat)
  l2_tag_storage : List (List Nat)
  l2_lru_storage : List (List Nat)
deriving DecidableEq

/-- `init_cache` (lines 81–122): zero statistics, `calloc`-zeroed tag and
LRU arrays sized `sets × assoc` per level, eviction flag cleared.  The
global `l2_evicted_addr` is zero-initialised C static storage. -/
def init_cache (cfg : Config) : CacheState where
  icacheRefs := 0
  icacheMisses := 0
  icachePenalties := 0
  dcacheRefs := 0
  dcacheMisses := 0
  dcachePenalties := 0
  l2cacheRefs := 0
  l2cacheMisses := 0
  l2cachePenalties := 0
  l2_did_evict := false
  l2_evicted_addr := 0
  l1i_tag_storage := List.replicate cfg.icacheSets (List.replicate cfg.icacheAssoc 0)
  l1i_lru_storage := List.replicate cfg.icacheSets (List.replicate cfg.icacheAssoc 0)
  l1d_tag_storage := List.replicate cfg.dcacheSets (List.replicate cfg.dcacheAssoc 0)
  l1d_lru_storage := List.replicate cfg.dcacheSets (List.replicate cfg.dcacheAssoc 0)
  l2_tag_storage := List.replicate cfg.l2cacheSets (List.replicate cfg.l2cacheAssoc 0)
  l2_lru_storage := List.replicate cfg.l2cacheSets (List.replicate cfg.l2cacheAssoc 0)

/-- `l2cache_access` (lines 306–374).  Returns the latency and the new
state.  `l2_did_evict` is cleared first; a set count of 0 bypasses the
level; on a miss the victim's old tag is tested for the valid bit before
being overwritten, and a valid eviction records the reconstructed address. -/
def l2cache_access (cfg : Config) (s : CacheState) (addr : Nat) : Nat × CacheState :=
  let s0 := { s with l2_did_evict := false }
  if cfg.l2cacheSets = 0 then
    (cfg.memspeed, s0)
  else
    let s1 := { s0 with l2cacheRefs := s0.l2cacheRefs + 1 }
    let index := decodeIndex cfg.blocksize cfg.l2cacheSets addr
    let tag := decodeTag cfg.blocksize cfg.l2cacheSets addr
    let tags := s1.l2_tag_storage.getD index []
    let lrus := s1.l2_lru_storage.getD index []
    match hitWay cfg.l2cacheAssoc tags tag with
    | some i =>
      (cfg.l2cacheHitTime,
        { s1 with l2_lru_storage := s1.l2_lru_storage.set index ((bumpL2 lrus).set i 0) })
    | none =>
      let s2 := { s1 with l2cacheMisses := s1.l2cacheMisses + 1 }
      let victim := findVictim cfg.l2cacheAssoc lrus
      let oldTag := tags.getD victim 0
      let s3 :=
        if Nat.land oldTag 0x80000000 ≠ 0 then
          { s2 with
            l2_did_evict := true
            l2_evicted_addr := reconstructAddr cfg.blocksize cfg.l2cacheSets oldTag victim }
        else s2
      let s4 :=
        { s3 with
          l2_tag_storage := s3.l2_tag_storage.set index (tags.set victim tag)
          l2_lru_storage := s3.l2_lru_storage.set index ((bumpL2 lrus).set victim 0)
          l2cachePenalties := s3.l2cachePenalties + cfg.memspeed }
      ((cfg.l2cacheHitTime + cfg.memspeed) % U32, s4)

/-- `icache_access` (lines 127–211).  A set count of 0 delegates to L2
unchanged; a hit ages the set and returns the hit time; a miss installs the
tag into the LRU victim way, accesses L2, enforces inclusion if L2 evicted,
accumulates the penalty and returns `icacheHitTime + l2_time`. -/
def icache_access (cfg : Config) (s : CacheState) (addr : Nat) : Nat × CacheState :=
  if cfg.icacheSets = 0 then
    l2cache_access cfg s addr
  else
    let s1 := { s with icacheRefs := s.icacheRefs + 1 }
    let index := decodeIndex cfg.blocksize cfg.icacheSets addr
    let tag := decodeTag cfg.blocksize cfg.icacheSets addr
    let tags := s1.l1i_tag_storage.getD index []
    let lrus := s1.l1i_lru_storage.getD index []
    match hitWay cfg.icacheAssoc tags tag with
    | some i =>
      (cfg.icacheHitTime,
        { s1 with l1i_lru_storage := s1.l1i_lru_storage.set index ((bumpL1 lrus).set i 0) })
    | none =>
      let s2 := { s1 with icacheMisses := s1.icacheMisses + 1 }
      let victim := findVictim cfg.icacheAssoc lrus
      let s3 :=
        { s2 with
          l1i_tag_storage := s2.l1i_tag_storage.set index (tags.set victim tag)
          l1i_lru_storage := s2.l1i_lru_storage.set index ((bumpL1 lrus).set victim 0) }
      let r := l2cache_access cfg s3 addr
      let s4 := r.2
      let s5 :=
        if cfg.inclusive ≠ 0 ∧ s4.l2_did_evict = true then
          let eIndex := decodeIndex cfg.blocksize cfg.icacheSets s4.l2_evicted_addr
          let eTag := decodeTag cfg.blocksize cfg.icacheSets s4.l2_evicted_addr
          let eTags := s4.l1i_tag_storage.getD eIndex []
          let eLrus := s4.l1i_lru_storage.getD eIndex []
          { s4 with
            l1i_tag_storage := s4.l1i_tag_storage.set eIndex (inclTags eTags eTag)
            l1i_lru_storage := s4.l1i_lru_storage.set eIndex (inclLrus eTags eLrus eTag) }
        else s4
      let s6 := { s5 with icachePenalties := s5.icachePenalties + r.1 }
      ((cfg.icacheHitTime + r.1) % U32, s6)

/-- `dcache_access` (lines 216–301), structurally identical to
`icache_access` but over the D-cache configuration, storage and counters. -/
def dcache_access (cfg : Config) (s : CacheState) (addr : Nat) : Nat × CacheState :=
  if cfg.dcacheSets = 0 then
    l2cache_access cfg s addr
  else
    let s1 := { s with dcacheRefs := s.dcacheRefs + 1 }
    let index := decodeIndex cfg.blocksize cfg.dcacheSets addr
    let tag := decodeTag cfg.blocksize cfg.dcacheSets addr
    let tags := s1.l1d_tag_storage.getD index []
    let lrus := s1.l1d_lru_storage.getD index []
    match hitWay cfg.dcacheAssoc tags tag with
    | some i =>
      (cfg.dcacheHitTime,
        { s1 with l1d_lru_storage := s1.l1d_lru_storage.set index ((bumpL1 lrus).set i 0) })
    | none =>
      let s2 := { s1 with dcacheMisses := s1.dcacheMisses + 1 }
      let victim := findVictim cfg.dcacheAssoc lrus
      let s3 :=
        { s2 with
          l1d_tag_storage := s2.l1d_tag_storage.set index (tags.set victim tag)
          l1d_lru_storage := s2.l1d_lru_storage.set index ((bumpL1 lrus).set victim 0) }
      let r := l2cache_access cfg s3 addr
      let s4 := r.2
      let s5 :=
        if cfg.inclusive ≠ 0 ∧ s4.l2_did_evict = true then
          let eIndex := decodeIndex cfg.blocksize cfg.dcacheSets s4.l2_evicted_addr
          let eTag := decodeTag cfg.blocksize cfg.dcacheSets s4.l2_evicted_addr
          let eTags := s4.l1d_tag_storage.getD eIndex []
          let eLrus := s4.l1d_lru_storage.getD eIndex []
          { s4 with
            l1d_tag_storage := s4.l1d_tag_storage.set eIndex (inclTags eTags eTag)
            l1d_lru_storage := s4.l1d_lru_storage.set eIndex (inclLrus eTags eLrus eTag) }
        else s4
      let s6 := { s5 with dcachePenalties := s5.dcachePenalties + r.1 }
      ((cfg.dcacheHitTime + r.1) % U32, s6)

/-- One driver step: `true` routes through the instruction cache, `false`
through the data cache (the two entry points the external driver calls). -/
def access1 (cfg : Config) (s : CacheState) (op : Bool × Nat) : Nat × CacheState :=
  if op.1 then icache_access cfg s op.2 else dcache_access cfg s op.2

/-- Replay an ordered trace of accesses, collecting the per-access
latencies and the final state. -/
def runTrace (cfg : Config) (s : CacheState) : List (Bool × Nat) → List Nat × CacheState
  | [] => ([], s)
  | op :: rest =>
    let r := access1 cfg s op
    let rr := runTrace cfg r.2 rest
    (r.1 :: rr.1, rr.2)

/-- Replay a list of data accesses, keeping only the final state. -/
def runD (cfg : Config) (s : CacheState) (addrs : List Nat) : CacheState :=
  addrs.foldl (fun s a => (dcache_access cfg s a).2) s

/-- Replay a list of direct L2 accesses, keeping only the final state. -/
def runL2 (cfg : Config) (s : CacheState) (addrs : List Nat) : CacheState :=
  addrs.foldl (fun s a => (l2cache_access cfg s a).2) s

/-- The D-cache tag array of one set. -/
def dSetTags (s : CacheState) (idx : Nat) : List Nat := s.l1d_tag_storage.getD idx []

/-- The D-cache recency array of one set. -/
def dSetLrus (s : CacheState) (idx : Nat) : List Nat := s.l1d_lru_storage.getD idx []

/-- The L2 tag array of one set. -/
def l2SetTags (s : CacheState) (idx : Nat) : List Nat := s.l2_tag_storage.getD idx []

/-- The L2 recency array of one set. -/
def l2SetLrus (s : CacheState) (idx : Nat) : List Nat := s.l2_lru_storage.getD idx []

end CacheSim

namespace CacheSim

/-! ## List access helper lemmas -/

theorem getD_set_self {α : Type} (l : List α) (i : Nat) (x d : α) (h : i < l.length) :
    (l.set i x).getD i d = x := by
  simp [List.getD_eq_getElem?_getD, List.getElem?_set_self, h]

theorem getD_set_ne {α : Type} (l : List α) {i j : Nat} (x d : α) (h : i ≠ j) :
    (l.set i x).getD j d = l.getD j d := by
  simp [List.getD_eq_getElem?_getD, List.getElem?_set_ne h]

theorem getD_map_lt (f : Nat → Nat) (l : List Nat) {i : Nat} (d : Nat) (h : i < l.length) :
    (l.map f).getD i d = f (l.getD i d) := by
  simp [List.getD_eq_getElem?_getD, List.getElem?_map, List.getElem?_eq_getElem h]

theorem getD_replicate {α : Type} {n i : Nat} (a d : α) (h : i < n) :
    (List.replicate n a).getD i d = a := by
  simp [List.getD_eq_getElem?_getD, List.getElem?_replicate, h]

theorem getD_length_le {α : Type} (l : List α) {i : Nat} (d : α) (h : l.length ≤ i) :
    l.getD i d = d := by
  simp [List.getD_eq_getElem?_getD, List.getElem?_eq_none h]

end CacheSim

namespace CacheSim

/-! ## Tag-probe and victim-scan characterisations -/

theorem hitWayAux_none (tags : List Nat) (tag : Nat) (n : Nat) :
    ∀ i, (∀ j, i ≤ j → j < i + n → tags.getD j 0 ≠ tag) → hitWayAux tags tag n i = none := by
  induction n with
  | zero => intro i _; rfl
  | succ n ih =>
    intro i h
    have hne : tags.getD i 0 ≠ tag := h i (by omega) (by omega)
    simp only [hitWayAux, beq_iff_eq, if_neg hne]
    exact ih (i + 1) (fun j hj1 hj2 => h j (by omega) (by omega))

theorem hitWay_none (assoc : Nat) (tags : List Nat) (tag : Nat)
    (h : ∀ j, j < assoc → tags.getD j 0 ≠ tag) : hitWay assoc tags tag = none :=
  hitWayAux_none tags tag assoc 0 (fun j _ hj => h j (by omega))

theorem hitWayAux_forall_none (tags : List Nat) (tag : Nat) (n : Nat) :
    ∀ i, hitWayAux tags tag n i = none → ∀ j, i ≤ j → j < i + n → tags.getD j 0 ≠ tag := by
  induction n with
  | zero => intro i _ j h1 h2; omega
  | succ n ih =>
    intro i h j h1 h2
    by_cases hi : tags.getD i 0 = tag
    · simp only [hitWayAux, beq_iff_eq, if_pos hi] at h
      exact absurd h (by simp)
    · simp only [hitWayAux, beq_iff_eq, if_neg hi] at h
      rcases Nat.eq_or_lt_of_le h1 with rfl | hlt
      · exact hi
      · exact ih (i + 1) h j hlt (by omega)

theorem hitWay_none_forall (assoc : Nat) (tags : List Nat) (tag : Nat)
    (h : hitWay assoc tags tag = none) : ∀ j, j < assoc → tags.getD j 0 ≠ tag :=
  fun j hj => hitWayAux_forall_none tags tag assoc 0 h j (Nat.zero_le j) (by omega)

theorem hitWayAux_some (tags : List Nat) (tag : Nat) (n : Nat) :
    ∀ i p, i ≤ p → p < i + n → tags.getD p 0 = tag →
      (∀ j, i ≤ j → j < p → tags.getD j 0 ≠ tag) → hitWayAux tags tag n i = some p := by
  induction n with
  | zero => intro i p h1 h2; omega
  | succ n ih =>
    intro i p h1 h2 hp hbefore
    rcases Nat.eq_or_lt_of_le h1 with rfl | hlt
    · simp only [hitWayAux, beq_iff_eq, if_pos hp]
    · have hne : tags.getD i 0 ≠ tag := hbefore i (by omega) hlt
      simp only [hitWayAux, beq_iff_eq, if_neg hne]
      exact ih (i + 1) p hlt (by omega) hp (fun j hj1 hj2 => hbefore j (by omega) hj2)

theorem hitWay_some (assoc : Nat) (tags : List Nat) (tag : Nat) (p : Nat)
    (h1 : p < assoc) (h2 : tags.getD p 0 = tag)
    (h3 : ∀ j, j < p → tags.getD j 0 ≠ tag) : hitWay assoc tags tag = some p :=
  hitWayAux_some tags tag assoc 0 p (Nat.zero_le p) (by omega) h2
    (fun j _ hj => h3 j hj)

theorem victimAux_const (lrus : List Nat) (n : Nat) :
    ∀ i best largest, (∀ j, i ≤ j → j < i + n → lrus.getD j 0 ≤ largest) →
      victimAux lrus n i best largest = best := by
  induction n with
  | zero => intro i best largest _; rfl
  | succ n ih =>
    intro i best largest h
    have hle : lrus.getD i 0 ≤ largest := h i (by omega) (by omega)
    simp only [victimAux, if_neg (Nat.not_lt.mpr hle)]
    exact ih (i + 1) best largest (fun j h1 h2 => h j (by omega) (by omega))

theorem victimAux_finds (lrus : List Nat) (n : Nat) :
    ∀ i best largest p, i ≤ p → p < i + n → largest < lrus.getD p 0 →
      (∀ j, i ≤ j → j < p → lrus.getD j 0 < lrus.getD p 0) →
      (∀ j, p < j → j < i + n → lrus.getD j 0 ≤ lrus.getD p 0) →
      victimAux lrus n i best largest = p := by
  induction n with
  | zero => intro i best largest p h1 h2; omega
  | succ n ih =>
    intro i best largest p h1 h2 hM hbefore hafter
    rcases Nat.eq_or_lt_of_le h1 with rfl | hlt
    · simp only [victimAux, if_pos hM]
      exact victimAux_const lrus n (i + 1) i (lrus.getD i 0)
        (fun j h1 h2 => hafter j (by omega) (by omega))
    · by_cases hx : largest < lrus.getD i 0
      · simp only [victimAux, if_pos hx]
        exact ih (i + 1) i (lrus.getD i 0) p hlt (by omega) (hbefore i (by omega) hlt)
          (fun j h1 h2 => hbefore j (by omega) h2) (fun j h1 h2 => hafter j h1 (by omega))
      · simp only [victimAux, if_neg hx]
        exact ih (i + 1) best largest p hlt (by omega) hM
          (fun j h1 h2 => hbefore j (by omega) h2) (fun j h1 h2 => hafter j h1 (by omega))

theorem victimAux_lt (lrus : List Nat) (n : Nat) :
    ∀ i best largest m, best < m → i + n ≤ m → victimAux lrus n i best largest < m := by
  induction n with
  | zero => intro i best largest m h _; exact h
  | succ n ih =>
    intro i best largest m h hm
    by_cases hx : largest < lrus.getD i 0
    · simp only [victimAux, if_pos hx]; exact ih (i + 1) i _ m (by omega) (by omega)
    · simp only [victimAux, if_neg hx]; exact ih (i + 1) best largest m h (by omega)

theorem findVictim_lt (assoc : Nat) (lrus : List Nat) (h : 0 < assoc) :
    findVictim assoc lrus < assoc :=
  victimAux_lt lrus assoc 0 0 0 assoc h (by omega)

/-- A decoded tag always has the valid bit set, hence is nonzero. -/
theorem decodeTag_testBit (bs sets addr : Nat) : (decodeTag bs sets addr).testBit 31 = true := by
  unfold decodeTag
  have h31 : (0x80000000 : Nat) = 2 ^ 31 := by norm_num
  rw [show Nat.lor ((addr >>> log2 bs) >>> log2 sets) 0x80000000
        = ((addr >>> log2 bs) >>> log2 sets) ||| 0x80000000 from rfl]
  rw [Nat.testBit_lor, h31, Nat.testBit_two_pow_self, Bool.or_true]

theorem decodeTag_ne_zero (bs sets addr : Nat) : decodeTag bs sets addr ≠ 0 := by
  intro h
  have := decodeTag_testBit bs sets addr
  rw [h, Nat.zero_testBit] at this
  exact Bool.false_ne_true this

end CacheSim

namespace CacheSim

/-! ## Step-description lemmas: each access function, by branch -/

theorem l2_hit_eq (cfg : Config) (s : CacheState) (addr : Nat) (i : Nat)
    (hs : cfg.l2cacheSets ≠ 0)
    (hh : hitWay cfg.l2cacheAssoc
        (s.l2_tag_storage.getD (decodeIndex cfg.blocksize cfg.l2cacheSets addr) [])
        (decodeTag cfg.blocksize cfg.l2cacheSets addr) = some i) :
    l2cache_access cfg s addr =
      (cfg.l2cacheHitTime,
        { s with
          l2_did_evict := false
          l2cacheRefs := s.l2cacheRefs + 1
          l2_lru_storage := s.l2_lru_storage.set
            (decodeIndex cfg.blocksize cfg.l2cacheSets addr)
            ((bumpL2 (s.l2_lru_storage.getD (decodeIndex cfg.blocksize cfg.l2cacheSets addr) [])).set i 0) }) := by
  simp only [l2cache_access, hs, hh]
  simp

theorem l2_miss_eq (cfg : Config) (s : CacheState) (addr : Nat)
    (hs : cfg.l2cacheSets ≠ 0)
    (hh : hitWay cfg.l2cacheAssoc
        (s.l2_tag_storage.getD (decodeIndex cfg.blocksize cfg.l2cacheSets addr) [])
        (decodeTag cfg.blocksize cfg.l2cacheSets addr) = none) :
    l2cache_access cfg s addr =
      ((cfg.l2cacheHitTime + cfg.memspeed) % U32,
        let index := decodeIndex cfg.blocksize cfg.l2cacheSets addr
        let tags := s.l2_tag_storage.getD index []
        let lrus := s.l2_lru_storage.getD index []
        let victim := findVictim cfg.l2cacheAssoc lrus
        let oldTag := tags.getD victim 0
        { s with
          l2_did_evict := decide (Nat.land oldTag 0x80000000 ≠ 0)
          l2_evicted_addr :=
            if Nat.land oldTag 0x80000000 ≠ 0 then
              reconstructAddr cfg.blocksize cfg.l2cacheSets oldTag victim
            else s.l2_evicted_addr
          l2cacheRefs := s.l2cacheRefs + 1
          l2cacheMisses := s.l2cacheMisses + 1
          l2cachePenalties := s.l2cachePenalties + cfg.memspeed
          l2_tag_storage := s.l2_tag_storage.set index
            (tags.set victim (decodeTag cfg.blocksize cfg.l2cacheSets addr))
          l2_lru_storage := s.l2_lru_storage.set index ((bumpL2 lrus).set victim 0) }) := by
  by_cases hv : Nat.land ((s.l2_tag_storage.getD (decodeIndex cfg.blocksize cfg.l2cacheSets addr)
      []).getD (findVictim cfg.l2cacheAssoc (s.l2_lru_storage.getD
      (decodeIndex cfg.blocksize cfg.l2cacheSets addr) [])) 0) 0x80000000 ≠ 0
  · simp only [l2cache_access, hs, hh, if_pos hv, hv, decide_eq_true_eq]
    simpa using hv
  · simp only [l2cache_access, hs, hh, if_neg hv, hv, decide_eq_false_iff_not]
    simp

end CacheSim

namespace CacheSim


theorem d_hit_eq (cfg : Config) (s : CacheState) (addr : Nat) (i : Nat)
    (hd : cfg.dcacheSets ≠ 0)
    (hh : hitWay cfg.dcacheAssoc
        (s.l1d_tag_storage.getD (decodeIndex cfg.blocksize cfg.dcacheSets addr) [])
        (decodeTag cfg.blocksize cfg.dcacheSets addr) = some i) :
    dcache_access cfg s addr =
      (cfg.dcacheHitTime,
        { s with
          dcacheRefs := s.dcacheRefs + 1
          l1d_lru_storage := s.l1d_lru_storage.set
            (decodeIndex cfg.blocksize cfg.dcacheSets addr)
            ((bumpL1 (s.l1d_lru_storage.getD (decodeIndex cfg.blocksize cfg.dcacheSets addr) [])).set i 0) }) := by
  simp only [dcache_access, hd, hh]
  simp

theorem i_hit_eq (cfg : Config) (s : CacheState) (addr : Nat) (i : Nat)
    (hi : cfg.icacheSets ≠ 0)
    (hh : hitWay cfg.icacheAssoc
        (s.l1i_tag_storage.getD (decodeIndex cfg.blocksize cfg.icacheSets addr) [])
        (decodeTag cfg.blocksize cfg.icacheSets addr) = some i) :
    icache_access cfg s addr =
      (cfg.icacheHitTime,
        { s with
          icacheRefs := s.icacheRefs + 1
          l1i_lru_storage := s.l1i_lru_storage.set
            (decodeIndex cfg.blocksize cfg.icacheSets addr)
            ((bumpL1 (s.l1i_lru_storage.getD (decodeIndex cfg.blocksize cfg.icacheSets addr) [])).set i 0) }) := by
  simp only [icache_access, hi, hh]
  simp

theorem d_miss_nol2_eq (cfg : Config) (s : CacheState) (addr : Nat)
    (hd : cfg.dcacheSets ≠ 0) (hl2 : cfg.l2cacheSets = 0)
    (hh : hitWay cfg.dcacheAssoc
        (s.l1d_tag_storage.getD (decodeIndex cfg.blocksize cfg.dcacheSets addr) [])
        (decodeTag cfg.blocksize cfg.dcacheSets addr) = none) :
    dcache_access cfg s addr =
      ((cfg.dcacheHitTime + cfg.memspeed) % U32,
        let index := decodeIndex cfg.blocksize cfg.dcacheSets addr
        let tags := s.l1d_tag_storage.getD index []
        let lrus := s.l1d_lru_storage.getD index []
        let victim := findVictim cfg.dcacheAssoc lrus
        { s with
          dcacheRefs := s.dcacheRefs + 1
          dcacheMisses := s.dcacheMisses + 1
          dcachePenalties := s.dcachePenalties + cfg.memspeed
          l2_did_evict := false
          l1d_tag_storage := s.l1d_tag_storage.set index
            (tags.set victim (decodeTag cfg.blocksize cfg.dcacheSets addr))
          l1d_lru_storage := s.l1d_lru_storage.set index ((bumpL1 lrus).set victim 0) }) := by
  simp only [dcache_access, hd, hh, l2cache_access, hl2, if_true, if_pos rfl]
  simp

theorem i_bypass_eq (cfg : Config) (s : CacheState) (addr : Nat) (hi : cfg.icacheSets = 0) :
    icache_access cfg s addr = l2cache_access cfg s addr := by
  simp [icache_access, hi]

theorem d_bypass_eq (cfg : Config) (s : CacheState) (addr : Nat) (hd : cfg.dcacheSets = 0) :
    dcache_access cfg s addr = l2cache_access cfg s addr := by
  simp [dcache_access, hd]

theorem l2_bypass_eq (cfg : Config) (s : CacheState) (addr : Nat) (hl2 : cfg.l2cacheSets = 0) :
    l2cache_access cfg s addr = (cfg.memspeed, { s with l2_did_evict := false }) := by
  simp [l2cache_access, hl2]

/-- Closed form of the L2 access latency. -/
theorem l2_lat (cfg : Config) (s : CacheState) (addr : Nat) :
    (l2cache_access cfg s addr).1 =
      if cfg.l2cacheSets = 0 then cfg.memspeed
      else if (hitWay cfg.l2cacheAssoc
          (s.l2_tag_storage.getD (decodeIndex cfg.blocksize cfg.l2cacheSets addr) [])
          (decodeTag cfg.blocksize cfg.l2cacheSets addr)).isSome then cfg.l2cacheHitTime
      else (cfg.l2cacheHitTime + cfg.memspeed) % U32 := by
  by_cases hs : cfg.l2cacheSets = 0
  · simp [l2_bypass_eq cfg s addr hs, hs]
  · cases hh : hitWay cfg.l2cacheAssoc
        (s.l2_tag_storage.getD (decodeIndex cfg.blocksize cfg.l2cacheSets addr) [])
        (decodeTag cfg.blocksize cfg.l2cacheSets addr) with
    | some i => rw [l2_hit_eq cfg s addr i hs hh]; simp [hs]
    | none => rw [l2_miss_eq cfg s addr hs hh]; simp [hs]

/-- The latency of an L2 access does not depend on anything but the L2
storage arrays of the state. -/
theorem l2_lat_congr (cfg : Config) (s t : CacheState) (addr : Nat)
    (h1 : s.l2_tag_storage = t.l2_tag_storage) :
    (l2cache_access cfg s addr).1 = (l2cache_access cfg t addr).1 := by
  rw [l2_lat, l2_lat, h1]

/-- Closed form of the D-cache access latency. -/
theorem d_lat (cfg : Config) (s : CacheState) (addr : Nat) :
    (dcache_access cfg s addr).1 =
      if cfg.dcacheSets = 0 then (l2cache_access cfg s addr).1
      else if (hitWay cfg.dcacheAssoc
          (s.l1d_tag_storage.getD (decodeIndex cfg.blocksize cfg.dcacheSets addr) [])
          (decodeTag cfg.blocksize cfg.dcacheSets addr)).isSome then cfg.dcacheHitTime
      else (cfg.dcacheHitTime + (l2cache_access cfg s addr).1) % U32 := by
  by_cases hd : cfg.dcacheSets = 0
  · rw [d_bypass_eq cfg s addr hd]; simp [hd]
  · cases hh : hitWay cfg.dcacheAssoc
        (s.l1d_tag_storage.getD (decodeIndex cfg.blocksize cfg.dcacheSets addr) [])
        (decodeTag cfg.blocksize cfg.dcacheSets addr) with
    | some i => rw [d_hit_eq cfg s addr i hd hh]; simp [hd]
    | none =>
      simp only [dcache_access, hd, hh]
      have hcongr : ∀ s3 : CacheState, s3.l2_tag_storage = s.l2_tag_storage →
          (l2cache_access cfg s3 addr).1 = (l2cache_access cfg s addr).1 := by
        intro s3 h3; exact l2_lat_congr cfg s3 s addr h3
      simp [hd, hh, hcongr]

/-- Closed form of the I-cache access latency. -/
theorem i_lat (cfg : Config) (s : CacheState) (addr : Nat) :
    (icache_access cfg s addr).1 =
      if cfg.icacheSets = 0 then (l2cache_access cfg s addr).1
      else if (hitWay cfg.icacheAssoc
          (s.l1i_tag_storage.getD (decodeIndex cfg.blocksize cfg.icacheSets addr) [])
          (decodeTag cfg.blocksize cfg.icacheSets addr)).isSome then cfg.icacheHitTime
      else (cfg.icacheHitTime + (l2cache_access cfg s addr).1) % U32 := by
  by_cases hi : cfg.icacheSets = 0
  · rw [i_bypass_eq cfg s addr hi]; simp [hi]
  · cases hh : hitWay cfg.icacheAssoc
        (s.l1i_tag_storage.getD (decodeIndex cfg.blocksize cfg.icacheSets addr) [])
        (decodeTag cfg.blocksize cfg.icacheSets addr) with
    | some i => rw [i_hit_eq cfg s addr i hi hh]; simp [hi]
    | none =>
      simp only [icache_access, hi, hh]
      have hcongr : ∀ s3 : CacheState, s3.l2_tag_storage = s.l2_tag_storage →
          (l2cache_access cfg s3 addr).1 = (l2cache_access cfg s addr).1 := by
        intro s3 h3; exact l2_lat_congr cfg s3 s addr h3
      simp [hi, hh, hcongr]

end CacheSim

namespace CacheSim

/-- Frame of an L2 access: the L1 statistics and the L1 storage arrays are
never touched by `l2cache_access`. -/
theorem l2_frame (cfg : Config) (s : CacheState) (addr : Nat) :
    (l2cache_access cfg s addr).2.icacheRefs = s.icacheRefs
    ∧ (l2cache_access cfg s addr).2.icacheMisses = s.icacheMisses
    ∧ (l2cache_access cfg s addr).2.icachePenalties = s.icachePenalties
    ∧ (l2cache_access cfg s addr).2.dcacheRefs = s.dcacheRefs
    ∧ (l2cache_access cfg s addr).2.dcacheMisses = s.dcacheMisses
    ∧ (l2cache_access cfg s addr).2.dcachePenalties = s.dcachePenalties
    ∧ (l2cache_access cfg s addr).2.l1i_tag_storage = s.l1i_tag_storage
    ∧ (l2cache_access cfg s addr).2.l1i_lru_storage = s.l1i_lru_storage
    ∧ (l2cache_access cfg s addr).2.l1d_tag_storage = s.l1d_tag_storage
    ∧ (l2cache_access cfg s addr).2.l1d_lru_storage = s.l1d_lru_storage := by
  by_cases hs : cfg.l2cacheSets = 0
  · rw [l2_bypass_eq cfg s addr hs]
    exact ⟨rfl, rfl, rfl, rfl, rfl, rfl, rfl, rfl, rfl, rfl⟩
  · cases hh : hitWay cfg.l2cacheAssoc
        (s.l2_tag_storage.getD (decodeIndex cfg.blocksize cfg.l2cacheSets addr) [])
        (decodeTag cfg.blocksize cfg.l2cacheSets addr) with
    | some i =>
      rw [l2_hit_eq cfg s addr i hs hh]
      exact ⟨rfl, rfl, rfl, rfl, rfl, rfl, rfl, rfl, rfl, rfl⟩
    | none =>
      rw [l2_miss_eq cfg s addr hs hh]
      exact ⟨rfl, rfl, rfl, rfl, rfl, rfl, rfl, rfl, rfl, rfl⟩

/-- The configuration of the concrete scenario of the spec's §8:
`blocksize=4`, L1-I disabled, `dcacheSets=2/assoc=1/hit=1`,
`l2cacheSets=2/assoc=1/hit=5`, inclusive, `memspeed=50`. -/
def cfgC4 : Config :=
  { icacheSets := 0, icacheAssoc := 0, icacheHitTime := 0,
    dcacheSets := 2, dcacheAssoc := 1, dcacheHitTime := 1,
    l2cacheSets := 2, l2cacheAssoc := 1, l2cacheHitTime := 5,
    inclusive := 1, blocksize := 4, memspeed := 50 }

/-- C4: from a fresh hierarchy under `cfgC4`, the data-access sequence
`[0, 16, 0]` yields latency 56 on each access; the second access evicts
address 0 from both levels (L2 signals the eviction of reconstructed
address 0, and the D-set no longer holds address 0's tag), and the third
access therefore misses again (three D-misses in total). -/
theorem c4_concrete_scenario :
    (runTrace cfgC4 (init_cache cfgC4) [(false, 0), (false, 16), (false, 0)]).1 = [56, 56, 56]
    ∧ (runTrace cfgC4 (init_cache cfgC4) [(false, 0), (false, 16)]).2.l2_did_evict = true
    ∧ (runTrace cfgC4 (init_cache cfgC4) [(false, 0), (false, 16)]).2.l2_evicted_addr = 0
    ∧ (∀ w, w < 1 →
        (dSetTags (runTrace cfgC4 (init_cache cfgC4) [(false, 0), (false, 16)]).2 0).getD w 0
          ≠ decodeTag 4 2 0)
    ∧ (∀ w, w < 1 →
        (l2SetTags (runTrace cfgC4 (init_cache cfgC4) [(false, 0), (false, 16)]).2 0).getD w 0
          ≠ decodeTag 4 2 0)
    ∧ (runTrace cfgC4 (init_cache cfgC4) [(false, 0), (false, 16), (false, 0)]).2.dcacheMisses = 3
    ∧ (runTrace cfgC4 (init_cache cfgC4) [(false, 0), (false, 16), (false, 0)]).2.l2cacheMisses = 3 := by
  decide

/-- C8: a full run is a deterministic function of the configuration and the
ordered access sequence: two replays from freshly initialised hierarchies
produce identical per-access latencies and identical final states (hence
identical statistics). -/
theorem c8_determinism (cfg : Config) (ops : List (Bool × Nat)) (s1 s2 : CacheState)
    (h1 : s1 = init_cache cfg) (h2 : s2 = init_cache cfg) :
    runTrace cfg s1 ops = runTrace cfg s2 ops := by
  subst h1; subst h2; rfl

theorem c8_determinism_witness :
    runTrace cfgC4 (init_cache cfgC4) [(true, 3), (false, 16)]
      = runTrace cfgC4 (init_cache cfgC4) [(true, 3), (false, 16)] :=
  c8_determinism cfgC4 [(true, 3), (false, 16)] (init_cache cfgC4) (init_cache cfgC4) rfl rfl

end CacheSim

namespace CacheSim

/-- C6: bypass behaviour.  A level whose set count is 0 delegates directly
to the next level down, returning its latency unchanged and leaving the
bypassed level's reference/miss/penalty counters untouched; and on full
miss paths the latency is exactly the sum of the enabled levels' hit times
plus the memory latency (the sums are exact whenever they do not overflow
`uint32_t`). -/
theorem c6_bypass_and_latency_sums (cfg : Config) (s : CacheState) (addr : Nat) :
    (cfg.icacheSets = 0 →
      icache_access cfg s addr = l2cache_access cfg s addr
      ∧ (icache_access cfg s addr).2.icacheRefs = s.icacheRefs
      ∧ (icache_access cfg s addr).2.icacheMisses = s.icacheMisses
      ∧ (icache_access cfg s addr).2.icachePenalties = s.icachePenalties)
    ∧ (cfg.dcacheSets = 0 →
      dcache_access cfg s addr = l2cache_access cfg s addr
      ∧ (dcache_access cfg s addr).2.dcacheRefs = s.dcacheRefs
      ∧ (dcache_access cfg s addr).2.dcacheMisses = s.dcacheMisses
      ∧ (dcache_access cfg s addr).2.dcachePenalties = s.dcachePenalties)
    ∧ (cfg.l2cacheSets = 0 →
      (l2cache_access cfg s addr).1 = cfg.memspeed
      ∧ (l2cache_access cfg s addr).2 = { s with l2_did_evict := false }
      ∧ (l2cache_access cfg s addr).2.l2cacheRefs = s.l2cacheRefs
      ∧ (l2cache_access cfg s addr).2.l2cacheMisses = s.l2cacheMisses
      ∧ (l2cache_access cfg s addr).2.l2cachePenalties = s.l2cachePenalties)
    ∧ (cfg.dcacheSets ≠ 0 → cfg.l2cacheSets ≠ 0 →
      hitWay cfg.dcacheAssoc
        (s.l1d_tag_storage.getD (decodeIndex cfg.blocksize cfg.dcacheSets addr) [])
        (decodeTag cfg.blocksize cfg.dcacheSets addr) = none →
      hitWay cfg.l2cacheAssoc
        (s.l2_tag_storage.getD (decodeIndex cfg.blocksize cfg.l2cacheSets addr) [])
        (decodeTag cfg.blocksize cfg.l2cacheSets addr) = none →
      cfg.dcacheHitTime + cfg.l2cacheHitTime + cfg.memspeed < U32 →
      (dcache_access cfg s addr).1 = cfg.dcacheHitTime + cfg.l2cacheHitTime + cfg.memspeed)
    ∧ (cfg.icacheSets ≠ 0 → cfg.l2cacheSets ≠ 0 →
      hitWay cfg.icacheAssoc
        (s.l1i_tag_storage.getD (decodeIndex cfg.blocksize cfg.icacheSets addr) [])
        (decodeTag cfg.blocksize cfg.icacheSets addr) = none →
      hitWay cfg.l2cacheAssoc
        (s.l2_tag_storage.getD (decodeIndex cfg.blocksize cfg.l2cacheSets addr) [])
        (decodeTag cfg.blocksize cfg.l2cacheSets addr) = none →
      cfg.icacheHitTime + cfg.l2cacheHitTime + cfg.memspeed < U32 →
      (icache_access cfg s addr).1 = cfg.icacheHitTime + cfg.l2cacheHitTime + cfg.memspeed)
    ∧ (cfg.dcacheSets ≠ 0 → cfg.l2cacheSets = 0 →
      hitWay cfg.dcacheAssoc
        (s.l1d_tag_storage.getD (decodeIndex cfg.blocksize cfg.dcacheSets addr) [])
        (decodeTag cfg.blocksize cfg.dcacheSets addr) = none →
      cfg.dcacheHitTime + cfg.memspeed < U32 →
      (dcache_access cfg s addr).1 = cfg.dcacheHitTime + cfg.memspeed)
    ∧ (cfg.icacheSets = 0 → cfg.l2cacheSets ≠ 0 →
      hitWay cfg.l2cacheAssoc
        (s.l2_tag_storage.getD (decodeIndex cfg.blocksize cfg.l2cacheSets addr) [])
        (decodeTag cfg.blocksize cfg.l2cacheSets addr) = none →
      cfg.l2cacheHitTime + cfg.memspeed < U32 →
      (icache_access cfg s addr).1 = cfg.l2cacheHitTime + cfg.memspeed) := by
  have hU : U32 = 4294967296 := rfl
  refine ⟨?_, ?_, ?_, ?_, ?_, ?_, ?_⟩
  · intro hi
    have he := i_bypass_eq cfg s addr hi
    have hf := l2_frame cfg s addr
    exact ⟨he, by rw [he]; exact hf.1, by rw [he]; exact hf.2.1, by rw [he]; exact hf.2.2.1⟩
  · intro hd
    have he := d_bypass_eq cfg s addr hd
    have hf := l2_frame cfg s addr
    exact ⟨he, by rw [he]; exact hf.2.2.2.1, by rw [he]; exact hf.2.2.2.2.1,
      by rw [he]; exact hf.2.2.2.2.2.1⟩
  · intro hl2
    rw [l2_bypass_eq cfg s addr hl2]
    exact ⟨rfl, rfl, rfl, rfl, rfl⟩
  · intro hd hl2 hmd hml2 hlt
    rw [d_lat, if_neg hd, hmd, l2_lat, if_neg hl2, hml2]
    simp only [Option.isSome_none, Bool.false_eq_true, if_false]
    have hin : (cfg.l2cacheHitTime + cfg.memspeed) % U32 = cfg.l2cacheHitTime + cfg.memspeed :=
      Nat.mod_eq_of_lt (by omega)
    rw [hin, Nat.mod_eq_of_lt (by omega)]
    omega
  · intro hi hl2 hmi hml2 hlt
    rw [i_lat, if_neg hi, hmi, l2_lat, if_neg hl2, hml2]
    simp only [Option.isSome_none, Bool.false_eq_true, if_false]
    have hin : (cfg.l2cacheHitTime + cfg.memspeed) % U32 = cfg.l2cacheHitTime + cfg.memspeed :=
      Nat.mod_eq_of_lt (by omega)
    rw [hin, Nat.mod_eq_of_lt (by omega)]
    omega
  · intro hd hl2 hmd hlt
    rw [d_lat, if_neg hd, hmd, l2_lat, if_pos hl2]
    simp only [Option.isSome_none, Bool.false_eq_true, if_false]
    rw [Nat.mod_eq_of_lt (by omega)]
  · intro hi hl2 hml2 hlt
    rw [i_lat, if_pos hi, l2_lat, if_neg hl2, hml2]
    simp only [Option.isSome_none, Bool.false_eq_true, if_false]
    rw [Nat.mod_eq_of_lt (by omega)]

theorem c6_bypass_and_latency_sums_witness :
    (dcache_access cfgC4 (init_cache cfgC4) 0).1 = 1 + 5 + 50
    ∧ (icache_access cfgC4 (init_cache cfgC4) 0).1 = 5 + 50 := by
  have h := c6_bypass_and_latency_sums cfgC4 (init_cache cfgC4) 0
  constructor
  · exact h.2.2.2.1 (by decide) (by decide) (by decide) (by decide) (by decide)
  · exact h.2.2.2.2.2.2 (by decide) (by decide) (by decide) (by decide)

end CacheSim

namespace CacheSim

/-- C9: frame property of an L1 hit.  When an instruction (resp. data)
access hits, the result is exactly: the hit time, the level's reference
counter incremented, and the recency array of the one set the address maps
to replaced — every tag array, every miss/penalty counter, the other L1,
the whole of L2 and the eviction signal are unchanged, and so is the
recency array of every other set of the same cache. -/
theorem c9_l1_hit_frame (cfg : Config) (s : CacheState) (addr w : Nat) :
    (cfg.icacheSets ≠ 0 →
      hitWay cfg.icacheAssoc
        (s.l1i_tag_storage.getD (decodeIndex cfg.blocksize cfg.icacheSets addr) [])
        (decodeTag cfg.blocksize cfg.icacheSets addr) = some w →
      icache_access cfg s addr =
        (cfg.icacheHitTime,
          { s with
            icacheRefs := s.icacheRefs + 1
            l1i_lru_storage := s.l1i_lru_storage.set
              (decodeIndex cfg.blocksize cfg.icacheSets addr)
              ((bumpL1 (s.l1i_lru_storage.getD (decodeIndex cfg.blocksize cfg.icacheSets addr) [])).set w 0) })
      ∧ ∀ k, k ≠ decodeIndex cfg.blocksize cfg.icacheSets addr →
          (icache_access cfg s addr).2.l1i_lru_storage.getD k []
            = s.l1i_lru_storage.getD k [])
    ∧ (cfg.dcacheSets ≠ 0 →
      hitWay cfg.dcacheAssoc
        (s.l1d_tag_storage.getD (decodeIndex cfg.blocksize cfg.dcacheSets addr) [])
        (decodeTag cfg.blocksize cfg.dcacheSets addr) = some w →
      dcache_access cfg s addr =
        (cfg.dcacheHitTime,
          { s with
            dcacheRefs := s.dcacheRefs + 1
            l1d_lru_storage := s.l1d_lru_storage.set
              (decodeIndex cfg.blocksize cfg.dcacheSets addr)
              ((bumpL1 (s.l1d_lru_storage.getD (decodeIndex cfg.blocksize cfg.dcacheSets addr) [])).set w 0) })
      ∧ ∀ k, k ≠ decodeIndex cfg.blocksize cfg.dcacheSets addr →
          (dcache_access cfg s addr).2.l1d_lru_storage.getD k []
            = s.l1d_lru_storage.getD k []) := by
  constructor
  · intro hi hh
    have he := i_hit_eq cfg s addr w hi hh
    refine ⟨he, fun k hk => ?_⟩
    rw [he]
    exact getD_set_ne s.l1i_lru_storage _ [] (fun h => hk h.symm)
  · intro hd hh
    have he := d_hit_eq cfg s addr w hd hh
    refine ⟨he, fun k hk => ?_⟩
    rw [he]
    exact getD_set_ne s.l1d_lru_storage _ [] (fun h => hk h.symm)

/-- Configuration used by several witnesses: 1-set direct caches at every
level, block size 1. -/
def cfgW : Config :=
  { icacheSets := 1, icacheAssoc := 1, icacheHitTime := 1,
    dcacheSets := 1, dcacheAssoc := 1, dcacheHitTime := 1,
    l2cacheSets := 1, l2cacheAssoc := 1, l2cacheHitTime := 5,
    inclusive := 1, blocksize := 1, memspeed := 50 }

/-- A state under `cfgW` in which address 7 is resident in both L1 caches. -/
def stW9 : CacheState :=
  { init_cache cfgW with
    l1i_tag_storage := [[decodeTag 1 1 7]]
    l1d_tag_storage := [[decodeTag 1 1 7]] }

theorem c9_l1_hit_frame_witness :
    (icache_access cfgW stW9 7).2.l2_tag_storage = stW9.l2_tag_storage
    ∧ (dcache_access cfgW stW9 7).2.l2_tag_storage = stW9.l2_tag_storage := by
  have h := c9_l1_hit_frame cfgW stW9 7 0
  constructor
  · rw [(h.1 (by decide) (by decide)).1]
  · rw [(h.2 (by decide) (by decide)).1]

/-- `log2` computes the exponent of every `uint32_t` power of two. -/
theorem log2_two_pow : ∀ b, b < 32 → log2 (2 ^ b) = b := by decide

/-- C10: block-offset insensitivity.  Two addresses in the same block
(equal quotients by the power-of-two block size) are indistinguishable to
every access entry point: same latency, identical post-states. -/
theorem c10_block_offset_insensitive (cfg : Config) (b : Nat) (s : CacheState) (a1 a2 : Nat)
    (hbs : cfg.blocksize = 2 ^ b) (hb : b < 32)
    (h : a1 / cfg.blocksize = a2 / cfg.blocksize) :
    icache_access cfg s a1 = icache_access cfg s a2
    ∧ dcache_access cfg s a1 = dcache_access cfg s a2
    ∧ l2cache_access cfg s a1 = l2cache_access cfg s a2 := by
  have hblk : a1 >>> log2 cfg.blocksize = a2 >>> log2 cfg.blocksize := by
    rw [hbs, log2_two_pow b hb, Nat.shiftRight_eq_div_pow, Nat.shiftRight_eq_div_pow]
    rw [hbs] at h
    exact h
  have hl2idx : decodeIndex cfg.blocksize cfg.l2cacheSets a1
      = decodeIndex cfg.blocksize cfg.l2cacheSets a2 := by
    unfold decodeIndex; rw [hblk]
  have hl2tag : decodeTag cfg.blocksize cfg.l2cacheSets a1
      = decodeTag cfg.blocksize cfg.l2cacheSets a2 := by
    unfold decodeTag; rw [hblk]
  have hl2 : ∀ t : CacheState, l2cache_access cfg t a1 = l2cache_access cfg t a2 := by
    intro t
    simp only [l2cache_access, hl2idx, hl2tag]
  have hiidx : decodeIndex cfg.blocksize cfg.icacheSets a1
      = decodeIndex cfg.blocksize cfg.icacheSets a2 := by
    unfold decodeIndex; rw [hblk]
  have hitag : decodeTag cfg.blocksize cfg.icacheSets a1
      = decodeTag cfg.blocksize cfg.icacheSets a2 := by
    unfold decodeTag; rw [hblk]
  have hdidx : decodeIndex cfg.blocksize cfg.dcacheSets a1
      = decodeIndex cfg.blocksize cfg.dcacheSets a2 := by
    unfold decodeIndex; rw [hblk]
  have hdtag : decodeTag cfg.blocksize cfg.dcacheSets a1
      = decodeTag cfg.blocksize cfg.dcacheSets a2 := by
    unfold decodeTag; rw [hblk]
  refine ⟨?_, ?_, hl2 s⟩
  · simp only [icache_access, hiidx, hitag, hl2]
  · simp only [dcache_access, hdidx, hdtag, hl2]

theorem c10_block_offset_insensitive_witness :
    dcache_access cfgC4 (init_cache cfgC4) 1 = dcache_access cfgC4 (init_cache cfgC4) 3 :=
  (c10_block_offset_insensitive cfgC4 2 (init_cache cfgC4) 1 3 rfl (by decide) (by decide)).2.1

end CacheSim

namespace CacheSim

/-- Configuration exhibiting the L2 sentinel-aging behaviour: a single
2-way L2 set, L1s disabled. -/
def cfgC3 : Config :=
  { icacheSets := 0, icacheAssoc := 0, icacheHitTime := 0,
    dcacheSets := 0, dcacheAssoc := 0, dcacheHitTime := 0,
    l2cacheSets := 1, l2cacheAssoc := 2, l2cacheHitTime := 5,
    inclusive := 0, blocksize := 1, memspeed := 50 }

/-- An L2 state under `cfgC3` whose set 0 holds address 0's tag in way 0
and the forced-invalid sentinel recency in way 1. -/
def stC3 : CacheState :=
  { init_cache cfgC3 with
    l2_tag_storage := [[decodeTag 1 1 0, 7]]
    l2_lru_storage := [[0, UINT32_MAX]] }

/-- C3 counterexample: on an L2 *hit* (the access returns the L2 hit time),
the slot holding the invalid-sentinel recency `UINT32_MAX` is *not* left
unchanged: the unconditional aging of the L2 hit path wraps it to 0, so the
claim fails for the L2 level. -/
theorem c3_counterexample_l2_hit_wraps_sentinel :
    (l2cache_access cfgC3 stC3 0).1 = cfgC3.l2cacheHitTime
    ∧ (l2SetLrus stC3 0).getD 1 0 = UINT32_MAX
    ∧ (l2SetLrus (l2cache_access cfgC3 stC3 0).2 0).getD 1 0 = 0 := by
  decide

/-- C3 amended: sentinel preservation on hit holds for the two L1 caches
only.  On an L1-I or L1-D hit, every slot of the hit set other than the hit
way whose recency is the sentinel `UINT32_MAX` still holds `UINT32_MAX`
afterwards (the L1 aging step skips sentinel slots; the L2 hit path instead
increments every slot unconditionally, as the counterexample shows). -/
theorem c3_l1_hit_preserves_sentinel (cfg : Config) (s : CacheState) (addr w j : Nat) :
    (cfg.icacheSets ≠ 0 →
      hitWay cfg.icacheAssoc
        (s.l1i_tag_storage.getD (decodeIndex cfg.blocksize cfg.icacheSets addr) [])
        (decodeTag cfg.blocksize cfg.icacheSets addr) = some w →
      j ≠ w →
      (s.l1i_lru_storage.getD (decodeIndex cfg.blocksize cfg.icacheSets addr) []).getD j 0
        = UINT32_MAX →
      ((icache_access cfg s addr).2.l1i_lru_storage.getD
        (decodeIndex cfg.blocksize cfg.icacheSets addr) []).getD j 0 = UINT32_MAX)
    ∧ (cfg.dcacheSets ≠ 0 →
      hitWay cfg.dcacheAssoc
        (s.l1d_tag_storage.getD (decodeIndex cfg.blocksize cfg.dcacheSets addr) [])
        (decodeTag cfg.blocksize cfg.dcacheSets addr) = some w →
      j ≠ w →
      (s.l1d_lru_storage.getD (decodeIndex cfg.blocksize cfg.dcacheSets addr) []).getD j 0
        = UINT32_MAX →
      ((dcache_access cfg s addr).2.l1d_lru_storage.getD
        (decodeIndex cfg.blocksize cfg.dcacheSets addr) []).getD j 0 = UINT32_MAX) := by
  constructor
  · intro hi hh hj hmax
    rw [i_hit_eq cfg s addr w hi hh]
    set idx := decodeIndex cfg.blocksize cfg.icacheSets addr with hidx
    by_cases hlen : idx < s.l1i_lru_storage.length
    · rw [getD_set_self s.l1i_lru_storage idx _ [] hlen]
      have hj2 : j < (s.l1i_lru_storage.getD idx []).length := by
        by_contra hcon
        rw [getD_length_le _ 0 (Nat.le_of_not_lt hcon)] at hmax
        exact absurd hmax (by decide)
      rw [getD_set_ne _ 0 0 (fun h => hj h.symm)]
      unfold bumpL1
      rw [getD_map_lt _ _ 0 hj2, hmax]
      simp [UINT32_MAX]
    · rw [List.set_eq_of_length_le (Nat.le_of_not_lt hlen)]
      exact hmax
  · intro hd hh hj hmax
    rw [d_hit_eq cfg s addr w hd hh]
    set idx := decodeIndex cfg.blocksize cfg.dcacheSets addr with hidx
    by_cases hlen : idx < s.l1d_lru_storage.length
    · rw [getD_set_self s.l1d_lru_storage idx _ [] hlen]
      have hj2 : j < (s.l1d_lru_storage.getD idx []).length := by
        by_contra hcon
        rw [getD_length_le _ 0 (Nat.le_of_not_lt hcon)] at hmax
        exact absurd hmax (by decide)
      rw [getD_set_ne _ 0 0 (fun h => hj h.symm)]
      unfold bumpL1
      rw [getD_map_lt _ _ 0 hj2, hmax]
      simp [UINT32_MAX]
    · rw [List.set_eq_of_length_le (Nat.le_of_not_lt hlen)]
      exact hmax

/-- A state under `cfgW3` with address 0 resident in way 0 of each L1 set
and a sentinel recency in way 1. -/
def cfgW3 : Config :=
  { icacheSets := 1, icacheAssoc := 2, icacheHitTime := 1,
    dcacheSets := 1, dcacheAssoc := 2, dcacheHitTime := 1,
    l2cacheSets := 1, l2cacheAssoc := 2, l2cacheHitTime := 5,
    inclusive := 1, blocksize := 1, memspeed := 50 }

def stW3 : CacheState :=
  { init_cache cfgW3 with
    l1i_tag_storage := [[decodeTag 1 1 0, 5]]
    l1i_lru_storage := [[0, UINT32_MAX]]
    l1d_tag_storage := [[decodeTag 1 1 0, 5]]
    l1d_lru_storage := [[0, UINT32_MAX]] }

theorem c3_l1_hit_preserves_sentinel_witness :
    ((icache_access cfgW3 stW3 0).2.l1i_lru_storage.getD
      (decodeIndex 1 1 0) []).getD 1 0 = UINT32_MAX
    ∧ ((dcache_access cfgW3 stW3 0).2.l1d_lru_storage.getD
      (decodeIndex 1 1 0) []).getD 1 0 = UINT32_MAX := by
  have h := c3_l1_hit_preserves_sentinel cfgW3 stW3 0 0 1
  exact ⟨h.1 (by decide) (by decide) (by decide) (by decide),
    h.2 (by decide) (by decide) (by decide) (by decide)⟩

end CacheSim

namespace CacheSim

/-- Configuration on which the L2 evicted-address reconstruction goes
wrong: `blocksize=1`, L1-I disabled, a single fully-associative 2-way
L1-D set, two 2-way L2 sets, inclusive. -/
def cfgC12 : Config :=
  { icacheSets := 0, icacheAssoc := 0, icacheHitTime := 0,
    dcacheSets := 1, dcacheAssoc := 2, dcacheHitTime := 1,
    l2cacheSets := 2, l2cacheAssoc := 2, l2cacheHitTime := 5,
    inclusive := 1, blocksize := 1, memspeed := 50 }

/-- State just before the faulty eviction: after replaying the data
accesses `[2, 0, 0, 4, 0]` from a fresh hierarchy under `cfgC12`. -/
def stBefore : CacheState := runD cfgC12 (init_cache cfgC12) [2, 0, 0, 4, 0]

/-- State after the triggering access of address 6. -/
def stAfter : CacheState := runD cfgC12 (init_cache cfgC12) [2, 0, 0, 4, 0, 6]

/-- C1: the L2 miss path's address reconstruction does not invert the
decoding.  In the reachable state `stBefore`, L2 set 0 way 1 holds the tag
of address 0 (whose set index is 0); the next access evicts exactly that
slot, yet the code reports `l2_evicted_addr = 1` — an address in a
*different* block than the evicted address 0 — because line 363 of
`cache.c` ORs in the victim way number where the set index belongs. -/
theorem c1_reconstruction_not_inverse :
    (l2SetTags stBefore 0).getD 1 0 = decodeTag 1 2 0
    ∧ decodeIndex 1 2 0 = 0
    ∧ stAfter.l2_did_evict = true
    ∧ (l2SetTags stAfter 0).getD 1 0 ≠ decodeTag 1 2 0
    ∧ stAfter.l2_evicted_addr = 1
    ∧ (1 : Nat) / cfgC12.blocksize ≠ 0 / cfgC12.blocksize := by
  decide

/-- C2: the inclusion invariant is violated by the code.  Under `cfgC12`
(inclusive, D-assoc 2 ≤ L2-assoc 2), after the reachable run
`[2, 0, 0, 4, 0, 6]`, the just-completed L2 access evicted a valid block —
address 0's block, resident in L2 set 0 way 1 before the access and absent
from L2 afterwards — yet address 0's tag still matches a valid slot of the
L1-D set it maps to: the inclusion scan looked for the wrongly
reconstructed address 1 instead of 0. -/
theorem c2_inclusion_invariant_violated :
    stAfter.l2_did_evict = true
    ∧ (l2SetTags stBefore 0).getD 1 0 = decodeTag 1 2 0
    ∧ (∀ w, w < 2 → (l2SetTags stAfter 0).getD w 0 ≠ decodeTag 1 2 0)
    ∧ (∀ w, w < 2 → (l2SetTags stAfter 1).getD w 0 ≠ decodeTag 1 2 0)
    ∧ decodeIndex 1 1 0 = 0
    ∧ (dSetTags stAfter 0).getD 1 0 = decodeTag 1 1 0
    ∧ Nat.land ((dSetTags stAfter 0).getD 1 0) 0x80000000 ≠ 0 := by
  decide

end CacheSim

namespace CacheSim

/-! ## C7: well-formedness and tag distinctness invariant -/

/-- The validity test of the code: `tag & 0x80000000` (lines 144, 360). -/
def isValidTag (t : Nat) : Bool := Nat.land t 0x80000000 != 0

/-- No two ways of one set hold the same valid tag. -/
def distinctSet (assoc : Nat) (tags : List Nat) : Prop :=
  ∀ i j, i < assoc → j < assoc → i ≠ j → isValidTag (tags.getD i 0) = true →
    tags.getD i 0 ≠ tags.getD j 0

/-- The storage of one cache level is a `sets`-element list of
`assoc`-element arrays (the shape `init_cache` allocates). -/
def WFStorage (sets assoc : Nat) (st : List (List Nat)) : Prop :=
  st.length = sets ∧ ∀ i, i < sets → (st.getD i []).length = assoc

/-- The hierarchy invariant: all six storage arrays have their allocated
shape and every set of every level holds pairwise-distinct valid tags. -/
def GoodState (cfg : Config) (s : CacheState) : Prop :=
  WFStorage cfg.icacheSets cfg.icacheAssoc s.l1i_tag_storage
  ∧ WFStorage cfg.icacheSets cfg.icacheAssoc s.l1i_lru_storage
  ∧ WFStorage cfg.dcacheSets cfg.dcacheAssoc s.l1d_tag_storage
  ∧ WFStorage cfg.dcacheSets cfg.dcacheAssoc s.l1d_lru_storage
  ∧ WFStorage cfg.l2cacheSets cfg.l2cacheAssoc s.l2_tag_storage
  ∧ WFStorage cfg.l2cacheSets cfg.l2cacheAssoc s.l2_lru_storage
  ∧ (∀ i, i < cfg.icacheSets → distinctSet cfg.icacheAssoc (s.l1i_tag_storage.getD i []))
  ∧ (∀ i, i < cfg.dcacheSets → distinctSet cfg.dcacheAssoc (s.l1d_tag_storage.getD i []))
  ∧ (∀ i, i < cfg.l2cacheSets → distinctSet cfg.l2cacheAssoc (s.l2_tag_storage.getD i []))

/-- States reachable from a fresh hierarchy by instruction accesses, data
accesses and direct L2 accesses. -/
inductive Reachable (cfg : Config) : CacheState → Prop
  | init : Reachable cfg (init_cache cfg)
  | istep (s : CacheState) (addr : Nat) :
      Reachable cfg s → Reachable cfg (icache_access cfg s addr).2
  | dstep (s : CacheState) (addr : Nat) :
      Reachable cfg s → Reachable cfg (dcache_access cfg s addr).2
  | l2step (s : CacheState) (addr : Nat) :
      Reachable cfg s → Reachable cfg (l2cache_access cfg s addr).2

theorem decodeIndex_lt (bs sets addr : Nat) (h : sets ≠ 0) :
    decodeIndex bs sets addr < sets := by
  have : Nat.land (addr >>> log2 bs) (sets - 1) ≤ sets - 1 := Nat.and_le_right
  unfold decodeIndex
  omega

theorem valid_ne_zero {t : Nat} (h : isValidTag t = true) : t ≠ 0 := by
  intro h0
  rw [h0] at h
  exact absurd h (by decide)

theorem distinctSet_install (assoc : Nat) (tags : List Nat) (tag victim : Nat)
    (hd : distinctSet assoc tags)
    (hfresh : ∀ k, k < assoc → tags.getD k 0 ≠ tag) :
    distinctSet assoc (tags.set victim tag) := by
  by_cases hv : victim < tags.length
  · intro i j hi hj hij hval
    by_cases hiv : i = victim
    · subst hiv
      rw [getD_set_self tags i tag 0 hv] at hval ⊢
      rw [getD_set_ne tags tag 0 hij]
      exact fun h => hfresh j hj h.symm
    · rw [getD_set_ne tags tag 0 (fun h => hiv h.symm)] at hval ⊢
      by_cases hjv : j = victim
      · subst hjv
        rw [getD_set_self tags j tag 0 hv]
        exact hfresh i hi
      · rw [getD_set_ne tags tag 0 (fun h => hjv h.symm)]
        exact hd i j hi hj hij hval
  · rw [List.set_eq_of_length_le (Nat.le_of_not_lt hv)]
    exact hd

theorem distinctSet_incl (assoc : Nat) (tags : List Nat) (et : Nat)
    (hd : distinctSet assoc tags) :
    distinctSet assoc (inclTags tags et) := by
  intro i j hi hj hij hval
  unfold inclTags at hval ⊢
  by_cases hil : i < tags.length
  · rw [getD_map_lt _ tags 0 hil] at hval ⊢
    by_cases hie : tags.getD i 0 = et
    · rw [if_pos (beq_iff_eq.mpr hie)] at hval
      exact absurd hval (by decide)
    · rw [if_neg (fun h => hie (beq_iff_eq.mp h))] at hval ⊢
      by_cases hjl : j < tags.length
      · rw [getD_map_lt _ tags 0 hjl]
        by_cases hje : tags.getD j 0 = et
        · rw [if_pos (beq_iff_eq.mpr hje)]
          exact valid_ne_zero hval
        · rw [if_neg (fun h => hje (beq_iff_eq.mp h))]
          exact hd i j hi hj hij hval
      · rw [@getD_length_le Nat (List.map (fun t => if (t == et) = true then 0 else t) tags) j 0
          (by simpa using Nat.le_of_not_lt hjl)]
        exact valid_ne_zero hval
  · rw [@getD_length_le Nat (List.map (fun t => if (t == et) = true then 0 else t) tags) i 0
      (by simpa using Nat.le_of_not_lt hil)] at hval
    exact absurd hval (by decide)

theorem WFStorage_set (sets assoc : Nat) (st : List (List Nat)) (idx : Nat) (x : List Nat)
    (hwf : WFStorage sets assoc st) (hidx : idx < sets) (hx : x.length = assoc) :
    WFStorage sets assoc (st.set idx x) := by
  obtain ⟨hlen, hall⟩ := hwf
  refine ⟨by rw [List.length_set]; exact hlen, fun i hi => ?_⟩
  by_cases hie : i = idx
  · subst hie
    rw [getD_set_self st i x [] (by omega)]
    exact hx
  · rw [getD_set_ne st x [] (fun h => hie h.symm)]
    exact hall i hi

theorem WFStorage_getD_set (sets assoc : Nat) (st : List (List Nat)) {idx : Nat}
    (hwf : WFStorage sets assoc st) (hidx : idx < sets) :
    (st.getD idx []).length = assoc := hwf.2 idx hidx

end CacheSim

namespace CacheSim

/-- The state of the D-cache miss path just before the L2 access: counters
bumped, victim way overwritten, set aged (`s3` at line 276 of `cache.c`). -/
def dInstallState (cfg : Config) (s : CacheState) (addr : Nat) : CacheState :=
  let index := decodeIndex cfg.blocksize cfg.dcacheSets addr
  let tags := s.l1d_tag_storage.getD index []
  let lrus := s.l1d_lru_storage.getD index []
  let victim := findVictim cfg.dcacheAssoc lrus
  { s with
    dcacheRefs := s.dcacheRefs + 1
    dcacheMisses := s.dcacheMisses + 1
    l1d_tag_storage := s.l1d_tag_storage.set index
      (tags.set victim (decodeTag cfg.blocksize cfg.dcacheSets addr))
    l1d_lru_storage := s.l1d_lru_storage.set index ((bumpL1 lrus).set victim 0) }

/-- The inclusion-enforcement step of the D-cache (lines 282–295). -/
def inclStateD (cfg : Config) (s4 : CacheState) : CacheState :=
  if cfg.inclusive ≠ 0 ∧ s4.l2_did_evict = true then
    let eIndex := decodeIndex cfg.blocksize cfg.dcacheSets s4.l2_evicted_addr
    let eTag := decodeTag cfg.blocksize cfg.dcacheSets s4.l2_evicted_addr
    let eTags := s4.l1d_tag_storage.getD eIndex []
    let eLrus := s4.l1d_lru_storage.getD eIndex []
    { s4 with
      l1d_tag_storage := s4.l1d_tag_storage.set eIndex (inclTags eTags eTag)
      l1d_lru_storage := s4.l1d_lru_storage.set eIndex (inclLrus eTags eLrus eTag) }
  else s4

/-- The same two steps for the I-cache (lines 182–206). -/
def iInstallState (cfg : Config) (s : CacheState) (addr : Nat) : CacheState :=
  let index := decodeIndex cfg.blocksize cfg.icacheSets addr
  let tags := s.l1i_tag_storage.getD index []
  let lrus := s.l1i_lru_storage.getD index []
  let victim := findVictim cfg.icacheAssoc lrus
  { s with
    icacheRefs := s.icacheRefs + 1
    icacheMisses := s.icacheMisses + 1
    l1i_tag_storage := s.l1i_tag_storage.set index
      (tags.set victim (decodeTag cfg.blocksize cfg.icacheSets addr))
    l1i_lru_storage := s.l1i_lru_storage.set index ((bumpL1 lrus).set victim 0) }

def inclStateI (cfg : Config) (s4 : CacheState) : CacheState :=
  if cfg.inclusive ≠ 0 ∧ s4.l2_did_evict = true then
    let eIndex := decodeIndex cfg.blocksize cfg.icacheSets s4.l2_evicted_addr
    let eTag := decodeTag cfg.blocksize cfg.icacheSets s4.l2_evicted_addr
    let eTags := s4.l1i_tag_storage.getD eIndex []
    let eLrus := s4.l1i_lru_storage.getD eIndex []
    { s4 with
      l1i_tag_storage := s4.l1i_tag_storage.set eIndex (inclTags eTags eTag)
      l1i_lru_storage := s4.l1i_lru_storage.set eIndex (inclLrus eTags eLrus eTag) }
  else s4

theorem d_miss_eq (cfg : Config) (s : CacheState) (addr : Nat)
    (hd : cfg.dcacheSets ≠ 0)
    (hh : hitWay cfg.dcacheAssoc
        (s.l1d_tag_storage.getD (decodeIndex cfg.blocksize cfg.dcacheSets addr) [])
        (decodeTag cfg.blocksize cfg.dcacheSets addr) = none) :
    dcache_access cfg s addr =
      ((cfg.dcacheHitTime + (l2cache_access cfg (dInstallState cfg s addr) addr).1) % U32,
        { inclStateD cfg (l2cache_access cfg (dInstallState cfg s addr) addr).2 with
          dcachePenalties :=
            (inclStateD cfg (l2cache_access cfg (dInstallState cfg s addr) addr).2).dcachePenalties
              + (l2cache_access cfg (dInstallState cfg s addr) addr).1 }) := by
  simp only [dcache_access, hd, hh, dInstallState, inclStateD]
  simp

theorem i_miss_eq (cfg : Config) (s : CacheState) (addr : Nat)
    (hi : cfg.icacheSets ≠ 0)
    (hh : hitWay cfg.icacheAssoc
        (s.l1i_tag_storage.getD (decodeIndex cfg.blocksize cfg.icacheSets addr) [])
        (decodeTag cfg.blocksize cfg.icacheSets addr) = none) :
    icache_access cfg s addr =
      ((cfg.icacheHitTime + (l2cache_access cfg (iInstallState cfg s addr) addr).1) % U32,
        { inclStateI cfg (l2cache_access cfg (iInstallState cfg s addr) addr).2 with
          icachePenalties :=
            (inclStateI cfg (l2cache_access cfg (iInstallState cfg s addr) addr).2).icachePenalties
              + (l2cache_access cfg (iInstallState cfg s addr) addr).1 }) := by
  simp only [icache_access, hi, hh, iInstallState, inclStateI]
  simp

/-- `GoodState` depends only on the six storage arrays. -/
theorem GoodState_of_storages (cfg : Config) (s t : CacheState)
    (h1 : t.l1i_tag_storage = s.l1i_tag_storage)
    (h2 : t.l1i_lru_storage = s.l1i_lru_storage)
    (h3 : t.l1d_tag_storage = s.l1d_tag_storage)
    (h4 : t.l1d_lru_storage = s.l1d_lru_storage)
    (h5 : t.l2_tag_storage = s.l2_tag_storage)
    (h6 : t.l2_lru_storage = s.l2_lru_storage)
    (hg : GoodState cfg s) : GoodState cfg t := by
  unfold GoodState at hg ⊢
  rw [h1, h2, h3, h4, h5, h6]
  exact hg

end CacheSim

namespace CacheSim

theorem init_good (cfg : Config) : GoodState cfg (init_cache cfg) := by
  have hwf : ∀ sets assoc : Nat,
      WFStorage sets assoc (List.replicate sets (List.replicate assoc (0 : Nat))) := by
    intro sets assoc
    refine ⟨List.length_replicate sets _, fun i hi => ?_⟩
    rw [getD_replicate _ [] hi]
    exact List.length_replicate assoc _
  have hdist : ∀ sets assoc : Nat, ∀ i, i < sets →
      distinctSet assoc ((List.replicate sets (List.replicate assoc (0 : Nat))).getD i []) := by
    intro sets assoc i hi
    rw [getD_replicate _ [] hi]
    intro a b ha hb hab hval
    rw [getD_replicate 0 0 ha] at hval
    exact absurd hval (by decide)
  exact ⟨hwf _ _, hwf _ _, hwf _ _, hwf _ _, hwf _ _, hwf _ _,
    hdist _ _, hdist _ _, hdist _ _⟩

theorem l2_preserves (cfg : Config) (s : CacheState) (addr : Nat)
    (hg : GoodState cfg s) : GoodState cfg (l2cache_access cfg s addr).2 := by
  obtain ⟨w1, w2, w3, w4, w5, w6, e1, e2, e3⟩ := hg
  by_cases hs : cfg.l2cacheSets = 0
  · rw [l2_bypass_eq cfg s addr hs]
    exact ⟨w1, w2, w3, w4, w5, w6, e1, e2, e3⟩
  · have hidx := decodeIndex_lt cfg.blocksize cfg.l2cacheSets addr hs
    cases hh : hitWay cfg.l2cacheAssoc
        (s.l2_tag_storage.getD (decodeIndex cfg.blocksize cfg.l2cacheSets addr) [])
        (decodeTag cfg.blocksize cfg.l2cacheSets addr) with
    | some i =>
      rw [l2_hit_eq cfg s addr i hs hh]
      refine ⟨w1, w2, w3, w4, w5, ?_, e1, e2, e3⟩
      refine WFStorage_set _ _ _ _ _ w6 hidx ?_
      rw [List.length_set]
      unfold bumpL2
      rw [List.length_map]
      exact WFStorage_getD_set _ _ _ w6 hidx
    | none =>
      rw [l2_miss_eq cfg s addr hs hh]
      refine ⟨w1, w2, w3, w4, ?_, ?_, e1, e2, ?_⟩
      · refine WFStorage_set _ _ _ _ _ w5 hidx ?_
        rw [List.length_set]
        exact WFStorage_getD_set _ _ _ w5 hidx
      · refine WFStorage_set _ _ _ _ _ w6 hidx ?_
        rw [List.length_set]
        unfold bumpL2
        rw [List.length_map]
        exact WFStorage_getD_set _ _ _ w6 hidx
      · intro k hk
        by_cases hke : k = decodeIndex cfg.blocksize cfg.l2cacheSets addr
        · subst hke
          rw [getD_set_self _ _ _ [] (by rw [w5.1]; exact hk)]
          exact distinctSet_install _ _ _ _ (e3 _ hk)
            (hitWay_none_forall _ _ _ hh)
        · rw [getD_set_ne _ _ [] (fun h => hke h.symm)]
          exact e3 k hk

theorem d_install_good (cfg : Config) (s : CacheState) (addr : Nat)
    (hd : cfg.dcacheSets ≠ 0)
    (hh : hitWay cfg.dcacheAssoc
        (s.l1d_tag_storage.getD (decodeIndex cfg.blocksize cfg.dcacheSets addr) [])
        (decodeTag cfg.blocksize cfg.dcacheSets addr) = none)
    (hg : GoodState cfg s) : GoodState cfg (dInstallState cfg s addr) := by
  obtain ⟨w1, w2, w3, w4, w5, w6, e1, e2, e3⟩ := hg
  have hidx := decodeIndex_lt cfg.blocksize cfg.dcacheSets addr hd
  unfold dInstallState
  refine ⟨w1, w2, ?_, ?_, w5, w6, e1, ?_, e3⟩
  · refine WFStorage_set _ _ _ _ _ w3 hidx ?_
    rw [List.length_set]
    exact WFStorage_getD_set _ _ _ w3 hidx
  · refine WFStorage_set _ _ _ _ _ w4 hidx ?_
    rw [List.length_set]
    unfold bumpL1
    rw [List.length_map]
    exact WFStorage_getD_set _ _ _ w4 hidx
  · intro k hk
    by_cases hke : k = decodeIndex cfg.blocksize cfg.dcacheSets addr
    · subst hke
      rw [getD_set_self _ _ _ [] (by rw [w3.1]; exact hk)]
      exact distinctSet_install _ _ _ _ (e2 _ hk) (hitWay_none_forall _ _ _ hh)
    · rw [getD_set_ne _ _ [] (fun h => hke h.symm)]
      exact e2 k hk

theorem incl_d_good (cfg : Config) (s4 : CacheState)
    (hd : cfg.dcacheSets ≠ 0)
    (hg : GoodState cfg s4) : GoodState cfg (inclStateD cfg s4) := by
  unfold inclStateD
  by_cases hc : cfg.inclusive ≠ 0 ∧ s4.l2_did_evict = true
  · rw [if_pos hc]
    obtain ⟨w1, w2, w3, w4, w5, w6, e1, e2, e3⟩ := hg
    have hidx := decodeIndex_lt cfg.blocksize cfg.dcacheSets s4.l2_evicted_addr hd
    refine ⟨w1, w2, ?_, ?_, w5, w6, e1, ?_, e3⟩
    · refine WFStorage_set _ _ _ _ _ w3 hidx ?_
      unfold inclTags
      rw [List.length_map]
      exact WFStorage_getD_set _ _ _ w3 hidx
    · refine WFStorage_set _ _ _ _ _ w4 hidx ?_
      unfold inclLrus
      rw [List.length_zipWith, WFStorage_getD_set _ _ _ w3 hidx,
        WFStorage_getD_set _ _ _ w4 hidx, Nat.min_self]
    · intro k hk
      by_cases hke : k = decodeIndex cfg.blocksize cfg.dcacheSets s4.l2_evicted_addr
      · subst hke
        rw [getD_set_self _ _ _ [] (by rw [w3.1]; exact hk)]
        exact distinctSet_incl _ _ _ (e2 _ hk)
      · rw [getD_set_ne _ _ [] (fun h => hke h.symm)]
        exact e2 k hk
  · rw [if_neg hc]
    exact hg

theorem d_preserves (cfg : Config) (s : CacheState) (addr : Nat)
    (hg : GoodState cfg s) : GoodState cfg (dcache_access cfg s addr).2 := by
  by_cases hd : cfg.dcacheSets = 0
  · rw [d_bypass_eq cfg s addr hd]
    exact l2_preserves cfg s addr hg
  · cases hh : hitWay cfg.dcacheAssoc
        (s.l1d_tag_storage.getD (decodeIndex cfg.blocksize cfg.dcacheSets addr) [])
        (decodeTag cfg.blocksize cfg.dcacheSets addr) with
    | some i =>
      rw [d_hit_eq cfg s addr i hd hh]
      obtain ⟨w1, w2, w3, w4, w5, w6, e1, e2, e3⟩ := hg
      have hidx := decodeIndex_lt cfg.blocksize cfg.dcacheSets addr hd
      refine ⟨w1, w2, w3, ?_, w5, w6, e1, e2, e3⟩
      refine WFStorage_set _ _ _ _ _ w4 hidx ?_
      rw [List.length_set]
      unfold bumpL1
      rw [List.length_map]
      exact WFStorage_getD_set _ _ _ w4 hidx
    | none =>
      rw [d_miss_eq cfg s addr hd hh]
      have hg3 := d_install_good cfg s addr hd hh hg
      have hg4 := l2_preserves cfg (dInstallState cfg s addr) addr hg3
      have hg5 := incl_d_good cfg (l2cache_access cfg (dInstallState cfg s addr) addr).2 hd hg4
      exact GoodState_of_storages cfg _ _ rfl rfl rfl rfl rfl rfl hg5

theorem i_install_good (cfg : Config) (s : CacheState) (addr : Nat)
    (hi : cfg.icacheSets ≠ 0)
    (hh : hitWay cfg.icacheAssoc
        (s.l1i_tag_storage.getD (decodeIndex cfg.blocksize cfg.icacheSets addr) [])
        (decodeTag cfg.blocksize cfg.icacheSets addr) = none)
    (hg : GoodState cfg s) : GoodState cfg (iInstallState cfg s addr) := by
  obtain ⟨w1, w2, w3, w4, w5, w6, e1, e2, e3⟩ := hg
  have hidx := decodeIndex_lt cfg.blocksize cfg.icacheSets addr hi
  unfold iInstallState
  refine ⟨?_, ?_, w3, w4, w5, w6, ?_, e2, e3⟩
  · refine WFStorage_set _ _ _ _ _ w1 hidx ?_
    rw [List.length_set]
    exact WFStorage_getD_set _ _ _ w1 hidx
  · refine WFStorage_set _ _ _ _ _ w2 hidx ?_
    rw [List.length_set]
    unfold bumpL1
    rw [List.length_map]
    exact WFStorage_getD_set _ _ _ w2 hidx
  · intro k hk
    by_cases hke : k = decodeIndex cfg.blocksize cfg.icacheSets addr
    · subst hke
      rw [getD_set_self _ _ _ [] (by rw [w1.1]; exact hk)]
      exact distinctSet_install _ _ _ _ (e1 _ hk) (hitWay_none_forall _ _ _ hh)
    · rw [getD_set_ne _ _ [] (fun h => hke h.symm)]
      exact e1 k hk

theorem incl_i_good (cfg : Config) (s4 : CacheState)
    (hi : cfg.icacheSets ≠ 0)
    (hg : GoodState cfg s4) : GoodState cfg (inclStateI cfg s4) := by
  unfold inclStateI
  by_cases hc : cfg.inclusive ≠ 0 ∧ s4.l2_did_evict = true
  · rw [if_pos hc]
    obtain ⟨w1, w2, w3, w4, w5, w6, e1, e2, e3⟩ := hg
    have hidx := decodeIndex_lt cfg.blocksize cfg.icacheSets s4.l2_evicted_addr hi
    refine ⟨?_, ?_, w3, w4, w5, w6, ?_, e2, e3⟩
    · refine WFStorage_set _ _ _ _ _ w1 hidx ?_
      unfold inclTags
      rw [List.length_map]
      exact WFStorage_getD_set _ _ _ w1 hidx
    · refine WFStorage_set _ _ _ _ _ w2 hidx ?_
      unfold inclLrus
      rw [List.length_zipWith, WFStorage_getD_set _ _ _ w1 hidx,
        WFStorage_getD_set _ _ _ w2 hidx, Nat.min_self]
    · intro k hk
      by_cases hke : k = decodeIndex cfg.blocksize cfg.icacheSets s4.l2_evicted_addr
      · subst hke
        rw [getD_set_self _ _ _ [] (by rw [w1.1]; exact hk)]
        exact distinctSet_incl _ _ _ (e1 _ hk)
      · rw [getD_set_ne _ _ [] (fun h => hke h.symm)]
        exact e1 k hk
  · rw [if_neg hc]
    exact hg

theorem i_preserves (cfg : Config) (s : CacheState) (addr : Nat)
    (hg : GoodState cfg s) : GoodState cfg (icache_access cfg s addr).2 := by
  by_cases hi : cfg.icacheSets = 0
  · rw [i_bypass_eq cfg s addr hi]
    exact l2_preserves cfg s addr hg
  · cases hh : hitWay cfg.icacheAssoc
        (s.l1i_tag_storage.getD (decodeIndex cfg.blocksize cfg.icacheSets addr) [])
        (decodeTag cfg.blocksize cfg.icacheSets addr) with
    | some i =>
      rw [i_hit_eq cfg s addr i hi hh]
      obtain ⟨w1, w2, w3, w4, w5, w6, e1, e2, e3⟩ := hg
      have hidx := decodeIndex_lt cfg.blocksize cfg.icacheSets addr hi
      refine ⟨w1, ?_, w3, w4, w5, w6, e1, e2, e3⟩
      refine WFStorage_set _ _ _ _ _ w2 hidx ?_
      rw [List.length_set]
      unfold bumpL1
      rw [List.length_map]
      exact WFStorage_getD_set _ _ _ w2 hidx
    | none =>
      rw [i_miss_eq cfg s addr hi hh]
      have hg3 := i_install_good cfg s addr hi hh hg
      have hg4 := l2_preserves cfg (iInstallState cfg s addr) addr hg3
      have hg5 := incl_i_good cfg (l2cache_access cfg (iInstallState cfg s addr) addr).2 hi hg4
      exact GoodState_of_storages cfg _ _ rfl rfl rfl rfl rfl rfl hg5

end CacheSim

namespace CacheSim

/-- C7: capacity and distinctness invariant.  Every reachable state is
well-formed — each set is an `associativity`-element array and no two
valid (flag-bit-set) slots of one set hold the same tag — so in particular
each set holds at most `associativity` valid tags; and the invariant is
preserved by each of the three access functions from any good state. -/
theorem c7_capacity_and_distinctness (cfg : Config) :
    (∀ s, Reachable cfg s → GoodState cfg s)
    ∧ (∀ s, Reachable cfg s →
        (∀ i, i < cfg.icacheSets →
          ((s.l1i_tag_storage.getD i []).filter isValidTag).length ≤ cfg.icacheAssoc)
        ∧ (∀ i, i < cfg.dcacheSets →
          ((s.l1d_tag_storage.getD i []).filter isValidTag).length ≤ cfg.dcacheAssoc)
        ∧ (∀ i, i < cfg.l2cacheSets →
          ((s.l2_tag_storage.getD i []).filter isValidTag).length ≤ cfg.l2cacheAssoc))
    ∧ (∀ s addr, GoodState cfg s → GoodState cfg (icache_access cfg s addr).2)
    ∧ (∀ s addr, GoodState cfg s → GoodState cfg (dcache_access cfg s addr).2)
    ∧ (∀ s addr, GoodState cfg s → GoodState cfg (l2cache_access cfg s addr).2) := by
  have hreach : ∀ s, Reachable cfg s → GoodState cfg s := by
    intro s hr
    induction hr with
    | init => exact init_good cfg
    | istep s addr _ ih => exact i_preserves cfg s addr ih
    | dstep s addr _ ih => exact d_preserves cfg s addr ih
    | l2step s addr _ ih => exact l2_preserves cfg s addr ih
  refine ⟨hreach, ?_, i_preserves cfg, d_preserves cfg, l2_preserves cfg⟩
  intro s hr
  obtain ⟨w1, _, w3, _, w5, _, _, _, _⟩ := hreach s hr
  refine ⟨fun i hi => ?_, fun i hi => ?_, fun i hi => ?_⟩
  · calc ((s.l1i_tag_storage.getD i []).filter isValidTag).length
        ≤ (s.l1i_tag_storage.getD i []).length := List.length_filter_le _ _
      _ = cfg.icacheAssoc := w1.2 i hi
  · calc ((s.l1d_tag_storage.getD i []).filter isValidTag).length
        ≤ (s.l1d_tag_storage.getD i []).length := List.length_filter_le _ _
      _ = cfg.dcacheAssoc := w3.2 i hi
  · calc ((s.l2_tag_storage.getD i []).filter isValidTag).length
        ≤ (s.l2_tag_storage.getD i []).length := List.length_filter_le _ _
      _ = cfg.l2cacheAssoc := w5.2 i hi

theorem c7_capacity_and_distinctness_witness :
    GoodState cfgC4 (init_cache cfgC4)
    ∧ GoodState cfgC4 (dcache_access cfgC4 (init_cache cfgC4) 0).2
    ∧ (∀ i, i < cfgC4.dcacheSets →
        (((init_cache cfgC4).l1d_tag_storage.getD i []).filter isValidTag).length
          ≤ cfgC4.dcacheAssoc) :=
  ⟨(c7_capacity_and_distinctness cfgC4).1 (init_cache cfgC4) (Reachable.init),
   (c7_capacity_and_distinctness cfgC4).2.2.2.1 (init_cache cfgC4) 0
     ((c7_capacity_and_distinctness cfgC4).1 (init_cache cfgC4) (Reachable.init)),
   ((c7_capacity_and_distinctness cfgC4).2.1 (init_cache cfgC4) (Reachable.init)).2.1⟩

end CacheSim

namespace CacheSim

/-! ## C5: LRU correctness, set-level core -/

theorem getD_append_left {α : Type} (l1 l2 : List α) (i : Nat) (d : α) (h : i < l1.length) :
    (l1 ++ l2).getD i d = l1.getD i d := by
  simp [List.getD_eq_getElem?_getD, List.getElem?_append_left h]

theorem getD_concat_length {α : Type} (l : List α) (x d : α) :
    (l ++ [x]).getD l.length d = x := by
  simp [List.getD_eq_getElem?_getD, List.getElem?_concat_length]

theorem getD_take {α : Type} (l : List α) (n i : Nat) (d : α) (h : i < n) :
    (l.take n).getD i d = l.getD i d := by
  simp [List.getD_eq_getElem?_getD, List.getElem?_take, h]

theorem take_succ_getD {α : Type} (l : List α) (k : Nat) (d : α) (h : k < l.length) :
    l.take (k + 1) = l.take k ++ [l.getD k d] := by
  rw [List.take_succ, List.getElem?_eq_getElem h, List.getD_eq_getElem l d h]
  rfl

theorem drop_last_getD {α : Type} (l : List α) (N : Nat) (d : α) (h : l.length = N + 1) :
    l.drop N = [l.getD N d] := by
  rw [List.drop_eq_getElem_cons (by omega), List.drop_eq_nil_of_le (by omega),
    List.getD_eq_getElem l d (by omega)]

/-- Shape of a set after inserting the distinct tags `ts` (in order) into
an initially empty `N`-way set: tags `ts` occupy the low ways in insertion
order, the remaining ways are empty, and the recencies sort the occupied
ways oldest-first (`|ts| - 1 - i`), the empty ways carrying `|ts|`. -/
structure FillInv (N : Nat) (ts tags lrus : List Nat) : Prop where
  tagsLen : tags.length = N
  lrusLen : lrus.length = N
  tsLen : ts.length ≤ N
  tagsLow : ∀ i, i < ts.length → tags.getD i 0 = ts.getD i 0
  tagsHigh : ∀ i, ts.length ≤ i → i < N → tags.getD i 0 = 0
  lrusLow : ∀ i, i < ts.length → lrus.getD i 0 = ts.length - 1 - i
  lrusHigh : ∀ i, ts.length ≤ i → i < N → lrus.getD i 0 = ts.length

/-- Shape of a full set right after a hit on way `j`: way `j` is most
recent, every other way `i` carries recency `N - i`. -/
structure HitInv (N j : Nat) (lrus : List Nat) : Prop where
  lrusLen : lrus.length = N
  hitZero : lrus.getD j 0 = 0
  others : ∀ i, i < N → i ≠ j → lrus.getD i 0 = N - i

theorem bumpL1_length (l : List Nat) : (bumpL1 l).length = l.length := by
  unfold bumpL1; exact List.length_map l _

theorem bumpL2_length (l : List Nat) : (bumpL2 l).length = l.length := by
  unfold bumpL2; exact List.length_map l _

theorem bumpL1_getD (l : List Nat) (i : Nat) (h : i < l.length)
    (hlt : l.getD i 0 + 1 < U32) : (bumpL1 l).getD i 0 = l.getD i 0 + 1 := by
  unfold bumpL1
  rw [getD_map_lt _ l 0 h]
  have hne : l.getD i 0 ≠ UINT32_MAX := by
    intro he
    rw [he] at hlt
    exact absurd hlt (by decide)
  rw [if_neg (by simpa using hne)]
  exact Nat.mod_eq_of_lt hlt

theorem bumpL2_getD (l : List Nat) (i : Nat) (h : i < l.length)
    (hlt : l.getD i 0 + 1 < U32) : (bumpL2 l).getD i 0 = l.getD i 0 + 1 := by
  unfold bumpL2
  rw [getD_map_lt _ l 0 h]
  exact Nat.mod_eq_of_lt hlt

/-- One miss on a fresh tag `t` in a partially filled set: the probe
misses, the victim is the first empty way `|ts|`, and installing `t` there
re-establishes the fill shape with `ts ++ [t]`. -/
theorem fill_step_core (N : Nat) (ts tags lrus : List Nat) (t : Nat)
    (bump : List Nat → List Nat)
    (hblen : (bump lrus).length = lrus.length)
    (hbpt : ∀ i, i < lrus.length → lrus.getD i 0 + 1 < U32 →
      (bump lrus).getD i 0 = lrus.getD i 0 + 1)
    (hinv : FillInv N ts tags lrus)
    (hk : ts.length < N) (hNM : N < UINT32_MAX)
    (ht0 : t ≠ 0)
    (hfresh : ∀ i, i < ts.length → ts.getD i 0 ≠ t) :
    hitWay N tags t = none
    ∧ findVictim N lrus = ts.length
    ∧ FillInv N (ts ++ [t]) (tags.set ts.length t) ((bump lrus).set ts.length 0) := by
  have hu : U32 = UINT32_MAX + 1 := rfl
  obtain ⟨htl, hll, hsl, htL, htH, hlL, hlH⟩ := hinv
  have hmiss : hitWay N tags t = none := by
    refine hitWay_none N tags t (fun j hj => ?_)
    by_cases hjk : j < ts.length
    · rw [htL j hjk]; exact hfresh j hjk
    · rw [htH j (Nat.le_of_not_lt hjk) hj]
      exact fun h => ht0 h.symm
  have hvict : findVictim N lrus = ts.length := by
    by_cases hk0 : ts.length = 0
    · rw [hk0]
      exact victimAux_const lrus N 0 0 0 (fun j h1 h2 => by
        rw [hlH j (by omega) (by omega), hk0])
    · refine victimAux_finds lrus N 0 0 0 ts.length (by omega) (by omega) ?_ ?_ ?_
      · rw [hlH ts.length (by omega) hk]; omega
      · intro j h1 h2
        rw [hlL j h2, hlH ts.length (by omega) hk]
        omega
      · intro j h1 h2
        rw [hlH j (by omega) (by omega), hlH ts.length (by omega) hk]
  refine ⟨hmiss, hvict, ?_⟩
  have hklen : ts.length < tags.length := by omega
  have hklen2 : ts.length < (bump lrus).length := by rw [hblen]; omega
  have hnewlen : (ts ++ [t]).length = ts.length + 1 := by
    rw [List.length_append, List.length_singleton]
  refine ⟨?_, ?_, ?_, ?_, ?_, ?_, ?_⟩
  · rw [List.length_set]; exact htl
  · rw [List.length_set, hblen]; exact hll
  · omega
  · intro i hi
    rw [hnewlen] at hi
    by_cases hik : i = ts.length
    · subst hik
      rw [getD_set_self tags ts.length t 0 hklen, getD_concat_length]
    · have hik2 : i < ts.length := by omega
      rw [getD_set_ne tags t 0 (fun h => hik h.symm), htL i hik2,
        getD_append_left ts [t] i 0 hik2]
  · intro i hi1 hi2
    rw [hnewlen] at hi1
    rw [getD_set_ne tags t 0 (by omega), htH i (by omega) hi2]
  · intro i hi
    rw [hnewlen] at hi ⊢
    by_cases hik : i = ts.length
    · subst hik
      rw [getD_set_self (bump lrus) ts.length 0 0 hklen2]
      omega
    · have hik2 : i < ts.length := by omega
      rw [getD_set_ne (bump lrus) 0 0 (fun h => hik h.symm),
        hbpt i (by omega) (by rw [hlL i hik2]; omega), hlL i hik2]
      omega
  · intro i hi1 hi2
    rw [hnewlen] at hi1 ⊢
    rw [getD_set_ne (bump lrus) 0 0 (by omega),
      hbpt i (by omega) (by rw [hlH i (by omega) hi2]; omega),
      hlH i (by omega) hi2]

/-- A hit on way `j` of a full set: the probe returns `j`, and the aging
plus reset produce the `HitInv` shape. -/
theorem full_hit_core (N : Nat) (ts tags lrus : List Nat) (j : Nat)
    (bump : List Nat → List Nat)
    (hblen : (bump lrus).length = lrus.length)
    (hbpt : ∀ i, i < lrus.length → lrus.getD i 0 + 1 < U32 →
      (bump lrus).getD i 0 = lrus.getD i 0 + 1)
    (hinv : FillInv N ts tags lrus)
    (hfull : ts.length = N) (hNM : N < UINT32_MAX) (hj : j < N)
    (hdist : ∀ a b, a < b → b < ts.length → ts.getD a 0 ≠ ts.getD b 0) :
    hitWay N tags (ts.getD j 0) = some j
    ∧ HitInv N j ((bump lrus).set j 0) := by
  have hu : U32 = UINT32_MAX + 1 := rfl
  obtain ⟨htl, hll, hsl, htL, htH, hlL, hlH⟩ := hinv
  have hhit : hitWay N tags (ts.getD j 0) = some j := by
    refine hitWay_some N tags (ts.getD j 0) j hj (htL j (by omega)) (fun a ha => ?_)
    rw [htL a (by omega)]
    exact hdist a j ha (by omega)
  have hjlen : j < (bump lrus).length := by rw [hblen]; omega
  refine ⟨hhit, ?_, ?_, ?_⟩
  · rw [List.length_set, hblen]; exact hll
  · rw [getD_set_self (bump lrus) j 0 0 hjlen]
  · intro i hi hij
    rw [getD_set_ne (bump lrus) 0 0 (fun h => hij h.symm),
      hbpt i (by omega) (by rw [hlL i (by omega)]; omega), hlL i (by omega)]
    omega

/-- The (N+1)-st distinct access on a full set evicts way 0 (the
least-recently-used way, holding the first-inserted tag). -/
theorem evict_from_full_core (N : Nat) (ts tags lrus : List Nat) (t : Nat)
    (hinv : FillInv N ts tags lrus)
    (hfull : ts.length = N) (hpos : 0 < N)
    (hfresh : ∀ i, i < ts.length → ts.getD i 0 ≠ t) :
    hitWay N tags t = none ∧ findVictim N lrus = 0 := by
  obtain ⟨htl, hll, hsl, htL, htH, hlL, hlH⟩ := hinv
  have hmiss : hitWay N tags t = none := by
    refine hitWay_none N tags t (fun a ha => ?_)
    rw [htL a (by omega)]
    exact hfresh a (by omega)
  refine ⟨hmiss, ?_⟩
  by_cases hN1 : N = 1
  · subst hN1
    exact victimAux_const lrus 1 0 0 0 (fun a h1 h2 => by
      rw [hlL a (by omega)]; omega)
  · refine victimAux_finds lrus N 0 0 0 0 (by omega) (by omega) ?_ ?_ ?_
    · rw [hlL 0 (by omega)]; omega
    · intro a h1 h2; omega
    · intro a h1 h2
      rw [hlL a (by omega), hlL 0 (by omega)]
      omega

/-- After a hit on way `j ≥ 1` of a full set, a subsequent miss still
evicts way 0 — the re-accessed way is shielded. -/
theorem evict_after_hit_core (N j : Nat) (lrus : List Nat)
    (hhi : HitInv N j lrus) (hj1 : 1 ≤ j) (hjN : j < N) :
    findVictim N lrus = 0 := by
  obtain ⟨hll, hz, ho⟩ := hhi
  refine victimAux_finds lrus N 0 0 0 0 (by omega) (by omega) ?_ ?_ ?_
  · rw [ho 0 (by omega) (by omega)]; omega
  · intro a h1 h2; omega
  · intro a h1 h2
    by_cases haj : a = j
    · subst haj
      rw [hz, ho 0 (by omega) (by omega)]
      omega
    · rw [ho a (by omega) haj, ho 0 (by omega) (by omega)]
      omega

end CacheSim

namespace CacheSim

/-- Generic description of a D-cache miss with L2 disabled, at the level of
the two D-storage arrays. -/
theorem d_miss_state (cfg : Config) (s : CacheState) (addr : Nat) (idx v : Nat)
    (hd : cfg.dcacheSets ≠ 0) (hl2 : cfg.l2cacheSets = 0)
    (hdec : decodeIndex cfg.blocksize cfg.dcacheSets addr = idx)
    (hmiss : hitWay cfg.dcacheAssoc (dSetTags s idx)
      (decodeTag cfg.blocksize cfg.dcacheSets addr) = none)
    (hvict : findVictim cfg.dcacheAssoc (dSetLrus s idx) = v) :
    (dcache_access cfg s addr).2.l1d_tag_storage
      = s.l1d_tag_storage.set idx
          ((dSetTags s idx).set v (decodeTag cfg.blocksize cfg.dcacheSets addr))
    ∧ (dcache_access cfg s addr).2.l1d_lru_storage
      = s.l1d_lru_storage.set idx ((bumpL1 (dSetLrus s idx)).set v 0) := by
  have hmiss2 : hitWay cfg.dcacheAssoc
      (s.l1d_tag_storage.getD (decodeIndex cfg.blocksize cfg.dcacheSets addr) [])
      (decodeTag cfg.blocksize cfg.dcacheSets addr) = none := by
    rw [hdec]; exact hmiss
  rw [d_miss_nol2_eq cfg s addr hd hl2 hmiss2]
  constructor
  · show s.l1d_tag_storage.set (decodeIndex cfg.blocksize cfg.dcacheSets addr)
        ((s.l1d_tag_storage.getD (decodeIndex cfg.blocksize cfg.dcacheSets addr) []).set
          (findVictim cfg.dcacheAssoc
            (s.l1d_lru_storage.getD (decodeIndex cfg.blocksize cfg.dcacheSets addr) []))
          (decodeTag cfg.blocksize cfg.dcacheSets addr)) = _
    rw [hdec]
    show s.l1d_tag_storage.set idx
        ((dSetTags s idx).set (findVictim cfg.dcacheAssoc (dSetLrus s idx))
          (decodeTag cfg.blocksize cfg.dcacheSets addr)) = _
    rw [hvict]
  · show s.l1d_lru_storage.set (decodeIndex cfg.blocksize cfg.dcacheSets addr)
        (List.set (bumpL1 (s.l1d_lru_storage.getD (decodeIndex cfg.blocksize cfg.dcacheSets addr) []))
          (findVictim cfg.dcacheAssoc
            (s.l1d_lru_storage.getD (decodeIndex cfg.blocksize cfg.dcacheSets addr) [])) 0) = _
    rw [hdec]
    show s.l1d_lru_storage.set idx
        ((bumpL1 (dSetLrus s idx)).set (findVictim cfg.dcacheAssoc (dSetLrus s idx)) 0) = _
    rw [hvict]

/-- Generic description of a D-cache hit at the level of the two D-storage
arrays. -/
theorem d_hit_state (cfg : Config) (s : CacheState) (addr : Nat) (idx j : Nat)
    (hd : cfg.dcacheSets ≠ 0)
    (hdec : decodeIndex cfg.blocksize cfg.dcacheSets addr = idx)
    (hhit : hitWay cfg.dcacheAssoc (dSetTags s idx)
      (decodeTag cfg.blocksize cfg.dcacheSets addr) = some j) :
    (dcache_access cfg s addr).2.l1d_tag_storage = s.l1d_tag_storage
    ∧ (dcache_access cfg s addr).2.l1d_lru_storage
      = s.l1d_lru_storage.set idx ((bumpL1 (dSetLrus s idx)).set j 0) := by
  have hhit2 : hitWay cfg.dcacheAssoc
      (s.l1d_tag_storage.getD (decodeIndex cfg.blocksize cfg.dcacheSets addr) [])
      (decodeTag cfg.blocksize cfg.dcacheSets addr) = some j := by
    rw [hdec]; exact hhit
  rw [d_hit_eq cfg s addr j hd hhit2]
  constructor
  · rfl
  · show s.l1d_lru_storage.set (decodeIndex cfg.blocksize cfg.dcacheSets addr)
        (List.set (bumpL1 (s.l1d_lru_storage.getD (decodeIndex cfg.blocksize cfg.dcacheSets addr) []))
          j 0) = _
    rw [hdec]
    rfl

end CacheSim

namespace CacheSim

/-- The two D-cache storage arrays have their configured outer length and
the tracked set has the fill shape `ts`. -/
def DSetInv (cfg : Config) (idx : Nat) (ts : List Nat) (s : CacheState) : Prop :=
  s.l1d_tag_storage.length = cfg.dcacheSets
  ∧ s.l1d_lru_storage.length = cfg.dcacheSets
  ∧ FillInv cfg.dcacheAssoc ts (dSetTags s idx) (dSetLrus s idx)

theorem d_init_inv (cfg : Config) (idx : Nat) (hidx : idx < cfg.dcacheSets) :
    DSetInv cfg idx [] (init_cache cfg) := by
  have htags : dSetTags (init_cache cfg) idx = List.replicate cfg.dcacheAssoc 0 := by
    unfold dSetTags init_cache
    exact getD_replicate _ [] hidx
  have hlrus : dSetLrus (init_cache cfg) idx = List.replicate cfg.dcacheAssoc 0 := by
    unfold dSetLrus init_cache
    exact getD_replicate _ [] hidx
  refine ⟨List.length_replicate _ _, List.length_replicate _ _, ?_⟩
  rw [htags, hlrus]
  exact ⟨List.length_replicate _ _, List.length_replicate _ _, Nat.zero_le _,
    fun i hi => absurd hi (by simp),
    fun i h1 h2 => getD_replicate 0 0 h2,
    fun i hi => absurd hi (by simp),
    fun i h1 h2 => by rw [getD_replicate 0 0 h2]; rfl⟩

theorem runD_append (cfg : Config) (s : CacheState) (l1 l2 : List Nat) :
    runD cfg s (l1 ++ l2) = runD cfg (runD cfg s l1) l2 := by
  unfold runD
  exact List.foldl_append _ _ l1 l2

theorem runL2_append (cfg : Config) (s : CacheState) (l1 l2 : List Nat) :
    runL2 cfg s (l1 ++ l2) = runL2 cfg (runL2 cfg s l1) l2 := by
  unfold runL2
  exact List.foldl_append _ _ l1 l2

theorem d_fill_state_step (cfg : Config) (s : CacheState) (addr : Nat) (idx : Nat) (ts : List Nat)
    (hd : cfg.dcacheSets ≠ 0) (hl2 : cfg.l2cacheSets = 0)
    (hidx : idx < cfg.dcacheSets) (hNM : cfg.dcacheAssoc < UINT32_MAX)
    (hdec : decodeIndex cfg.blocksize cfg.dcacheSets addr = idx)
    (hinv : DSetInv cfg idx ts s)
    (hk : ts.length < cfg.dcacheAssoc)
    (hfresh : ∀ i, i < ts.length → ts.getD i 0 ≠ decodeTag cfg.blocksize cfg.dcacheSets addr) :
    DSetInv cfg idx (ts ++ [decodeTag cfg.blocksize cfg.dcacheSets addr])
      (dcache_access cfg s addr).2 := by
  obtain ⟨hL1, hL2s, hfi⟩ := hinv
  have hcore := fill_step_core cfg.dcacheAssoc ts (dSetTags s idx) (dSetLrus s idx)
    (decodeTag cfg.blocksize cfg.dcacheSets addr) bumpL1 (bumpL1_length _)
    (fun i h1 h2 => bumpL1_getD _ i h1 h2) hfi hk hNM
    (decodeTag_ne_zero _ _ _) hfresh
  have hms := d_miss_state cfg s addr idx ts.length hd hl2 hdec hcore.1 hcore.2.1
  refine ⟨?_, ?_, ?_⟩
  · rw [hms.1, List.length_set]; exact hL1
  · rw [hms.2, List.length_set]; exact hL2s
  · unfold dSetTags dSetLrus
    rw [hms.1, hms.2,
      getD_set_self _ _ _ [] (by rw [hL1]; exact hidx),
      getD_set_self _ _ _ [] (by rw [hL2s]; exact hidx)]
    exact hcore.2.2

theorem d_fill_run (cfg : Config) (idx : Nat) (addrs : List Nat)
    (hd : cfg.dcacheSets ≠ 0) (hl2 : cfg.l2cacheSets = 0)
    (hidx : idx < cfg.dcacheSets) (hNM : cfg.dcacheAssoc < UINT32_MAX)
    (hlen : cfg.dcacheAssoc < addrs.length)
    (hmap : ∀ i, i < addrs.length →
      decodeIndex cfg.blocksize cfg.dcacheSets (addrs.getD i 0) = idx)
    (hdist : ∀ a b, a < b → b < addrs.length →
      decodeTag cfg.blocksize cfg.dcacheSets (addrs.getD a 0)
        ≠ decodeTag cfg.blocksize cfg.dcacheSets (addrs.getD b 0)) :
    ∀ k, k ≤ cfg.dcacheAssoc →
      DSetInv cfg idx ((addrs.take k).map (decodeTag cfg.blocksize cfg.dcacheSets))
        (runD cfg (init_cache cfg) (addrs.take k)) := by
  intro k
  induction k with
  | zero => intro _; exact d_init_inv cfg idx hidx
  | succ k ih =>
    intro hk1
    have hk : k ≤ cfg.dcacheAssoc := by omega
    have hklt : k < addrs.length := by omega
    have htklen : (addrs.take k).length = k := by
      rw [List.length_take]; omega
    rw [take_succ_getD addrs k 0 hklt, runD_append, List.map_append]
    refine d_fill_state_step cfg _ _ idx _ hd hl2 hidx hNM (hmap k hklt) (ih hk) ?_ ?_
    · rw [List.length_map, htklen]; omega
    · intro i hi
      have hilen : i < k := by
        rw [List.length_map, htklen] at hi; exact hi
      rw [getD_map_lt _ _ 0 (by rw [htklen]; omega), getD_take addrs k i 0 hilen]
      exact hdist i k hilen hklt

end CacheSim

namespace CacheSim

theorem d_lru_main (cfg : Config) (idx : Nat) (addrs : List Nat)
    (hd : cfg.dcacheSets ≠ 0) (hl2 : cfg.l2cacheSets = 0)
    (hpos : 0 < cfg.dcacheAssoc) (hNM : cfg.dcacheAssoc < UINT32_MAX)
    (hidx : idx < cfg.dcacheSets)
    (hlen : addrs.length = cfg.dcacheAssoc + 1)
    (hmap : ∀ i, i < addrs.length →
      decodeIndex cfg.blocksize cfg.dcacheSets (addrs.getD i 0) = idx)
    (hdist : ∀ a b, a < b → b < addrs.length →
      decodeTag cfg.blocksize cfg.dcacheSets (addrs.getD a 0)
        ≠ decodeTag cfg.blocksize cfg.dcacheSets (addrs.getD b 0)) :
    (dSetTags (runD cfg (init_cache cfg) (addrs.take cfg.dcacheAssoc)) idx).getD 0 0
        = decodeTag cfg.blocksize cfg.dcacheSets (addrs.getD 0 0)
    ∧ (∀ w, w < cfg.dcacheAssoc →
        (dSetTags (runD cfg (init_cache cfg) addrs) idx).getD w 0
          ≠ decodeTag cfg.blocksize cfg.dcacheSets (addrs.getD 0 0))
    ∧ (∀ k, 1 ≤ k → k ≤ cfg.dcacheAssoc → ∃ w, w < cfg.dcacheAssoc ∧
        (dSetTags (runD cfg (init_cache cfg) addrs) idx).getD w 0
          = decodeTag cfg.blocksize cfg.dcacheSets (addrs.getD k 0))
    ∧ (∀ j, 1 ≤ j → j < cfg.dcacheAssoc →
        (∃ w, w < cfg.dcacheAssoc ∧
          (dSetTags (runD cfg (init_cache cfg)
              (addrs.take cfg.dcacheAssoc ++ [addrs.getD j 0] ++ addrs.drop cfg.dcacheAssoc)) idx).getD w 0
            = decodeTag cfg.blocksize cfg.dcacheSets (addrs.getD j 0))
        ∧ (∀ w, w < cfg.dcacheAssoc →
          (dSetTags (runD cfg (init_cache cfg)
              (addrs.take cfg.dcacheAssoc ++ [addrs.getD j 0] ++ addrs.drop cfg.dcacheAssoc)) idx).getD w 0
            ≠ decodeTag cfg.blocksize cfg.dcacheSets (addrs.getD 0 0))) := by
  set N := cfg.dcacheAssoc with hNdef
  set f := decodeTag cfg.blocksize cfg.dcacheSets with hfdef
  set ts := (addrs.take N).map f with htsdef
  set sN := runD cfg (init_cache cfg) (addrs.take N) with hsNdef
  have hNlt : N < addrs.length := by omega
  have hInv : DSetInv cfg idx ts sN :=
    d_fill_run cfg idx addrs hd hl2 hidx hNM (by omega) hmap hdist N (Nat.le_refl N)
  have htklen : (addrs.take N).length = N := by rw [List.length_take]; omega
  have hts_len : ts.length = N := by rw [htsdef, List.length_map, htklen]
  have hts_getD : ∀ i, i < N → ts.getD i 0 = f (addrs.getD i 0) := by
    intro i hi
    rw [htsdef, getD_map_lt _ _ 0 (by rw [htklen]; omega), getD_take addrs N i 0 hi]
  have hfreshN : ∀ i, i < ts.length → ts.getD i 0 ≠ f (addrs.getD N 0) := by
    intro i hi
    rw [hts_getD i (by omega)]
    exact hdist i N (by omega) (by omega)
  have hcoreE := evict_from_full_core N ts (dSetTags sN idx) (dSetLrus sN idx)
    (f (addrs.getD N 0)) hInv.2.2 hts_len hpos hfreshN
  have haddrs : addrs = addrs.take N ++ [addrs.getD N 0] := by
    conv_lhs => rw [← List.take_length (l := addrs)]
    rw [hlen]
    exact take_succ_getD addrs N 0 hNlt
  have hrun : runD cfg (init_cache cfg) addrs = (dcache_access cfg sN (addrs.getD N 0)).2 := by
    conv_lhs => rw [haddrs]
    rw [runD_append]
    rfl
  have hmsE := d_miss_state cfg sN (addrs.getD N 0) idx 0 hd hl2
    (hmap N hNlt) hcoreE.1 hcoreE.2
  have hTagsF : dSetTags (dcache_access cfg sN (addrs.getD N 0)).2 idx
      = (dSetTags sN idx).set 0 (f (addrs.getD N 0)) := by
    unfold dSetTags
    rw [hmsE.1, getD_set_self _ _ _ [] (by rw [hInv.1]; exact hidx)]
    rfl
  have htagsLen : (dSetTags sN idx).length = N := hInv.2.2.tagsLen
  have habsence : ∀ w, w < N →
      ((dSetTags sN idx).set 0 (f (addrs.getD N 0))).getD w 0 ≠ f (addrs.getD 0 0) := by
    intro w hw
    by_cases hw0 : w = 0
    · subst hw0
      rw [getD_set_self _ _ _ 0 (by omega)]
      exact (hdist 0 N hpos (by omega)).symm
    · rw [getD_set_ne _ _ 0 (fun h => hw0 h.symm), hInv.2.2.tagsLow w (by omega),
        hts_getD w hw]
      exact (hdist 0 w (by omega) (by omega)).symm
  refine ⟨?_, ?_, ?_, ?_⟩
  · rw [hInv.2.2.tagsLow 0 (by omega), hts_getD 0 (by omega)]
  · intro w hw
    rw [hrun, hTagsF]
    exact habsence w hw
  · intro k hk1 hkN
    rw [hrun, hTagsF]
    by_cases hkEq : k = N
    · subst hkEq
      exact ⟨0, by omega, by rw [getD_set_self _ _ _ 0 (by omega)]⟩
    · refine ⟨k, by omega, ?_⟩
      rw [getD_set_ne _ _ 0 (by omega), hInv.2.2.tagsLow k (by omega),
        hts_getD k (by omega)]
  · intro j hj1 hjN
    have hjlen : j < addrs.length := by omega
    have hdist' : ∀ a b, a < b → b < ts.length → ts.getD a 0 ≠ ts.getD b 0 := by
      intro a b hab hb
      rw [hts_getD a (by omega), hts_getD b (by omega)]
      exact hdist a b hab (by omega)
    have hcoreH := full_hit_core N ts (dSetTags sN idx) (dSetLrus sN idx) j bumpL1
      (bumpL1_length _) (fun i h1 h2 => bumpL1_getD _ i h1 h2)
      hInv.2.2 hts_len hNM (by omega) hdist'
    have hhitJ : hitWay N (dSetTags sN idx) (f (addrs.getD j 0)) = some j := by
      rw [← hts_getD j (by omega)]
      exact hcoreH.1
    have hhs := d_hit_state cfg sN (addrs.getD j 0) idx j hd (hmap j hjlen) hhitJ
    have hTagsH : dSetTags (dcache_access cfg sN (addrs.getD j 0)).2 idx = dSetTags sN idx := by
      unfold dSetTags
      rw [hhs.1]
    have hLrusH : dSetLrus (dcache_access cfg sN (addrs.getD j 0)).2 idx
        = (bumpL1 (dSetLrus sN idx)).set j 0 := by
      unfold dSetLrus
      rw [hhs.2, getD_set_self _ _ _ [] (by rw [hInv.2.1]; exact hidx)]
      rfl
    have hhiJ : HitInv N j (dSetLrus (dcache_access cfg sN (addrs.getD j 0)).2 idx) := by
      rw [hLrusH]
      exact hcoreH.2
    have hL1H : (dcache_access cfg sN (addrs.getD j 0)).2.l1d_tag_storage.length
        = cfg.dcacheSets := by
      rw [hhs.1]
      exact hInv.1
    have hmissH : hitWay N (dSetTags (dcache_access cfg sN (addrs.getD j 0)).2 idx)
        (f (addrs.getD N 0)) = none := by
      rw [hTagsH]
      exact hcoreE.1
    have hvictH : findVictim N (dSetLrus (dcache_access cfg sN (addrs.getD j 0)).2 idx) = 0 :=
      evict_after_hit_core N j _ hhiJ hj1 hjN
    have hmsH := d_miss_state cfg (dcache_access cfg sN (addrs.getD j 0)).2 (addrs.getD N 0)
      idx 0 hd hl2 (hmap N hNlt) hmissH hvictH
    have hdrop : addrs.drop N = [addrs.getD N 0] := drop_last_getD addrs N 0 hlen
    have hrun2 : runD cfg (init_cache cfg)
        (addrs.take N ++ [addrs.getD j 0] ++ addrs.drop N)
        = (dcache_access cfg (dcache_access cfg sN (addrs.getD j 0)).2 (addrs.getD N 0)).2 := by
      rw [hdrop, runD_append, runD_append]
      rfl
    have hTagsF2 : dSetTags (dcache_access cfg (dcache_access cfg sN (addrs.getD j 0)).2
        (addrs.getD N 0)).2 idx = (dSetTags sN idx).set 0 (f (addrs.getD N 0)) := by
      unfold dSetTags
      rw [hmsH.1, getD_set_self _ _ _ [] (by rw [hL1H]; exact hidx)]
      rw [hTagsH]
      rfl
    constructor
    · refine ⟨j, by omega, ?_⟩
      rw [hrun2, hTagsF2, getD_set_ne _ _ 0 (by omega),
        hInv.2.2.tagsLow j (by omega), hts_getD j (by omega)]
    · intro w hw
      rw [hrun2, hTagsF2]
      exact habsence w hw

end CacheSim

namespace CacheSim

theorem l2_miss_state (cfg : Config) (s : CacheState) (addr : Nat) (idx v : Nat)
    (hs : cfg.l2cacheSets ≠ 0)
    (hdec : decodeIndex cfg.blocksize cfg.l2cacheSets addr = idx)
    (hmiss : hitWay cfg.l2cacheAssoc (l2SetTags s idx)
      (decodeTag cfg.blocksize cfg.l2cacheSets addr) = none)
    (hvict : findVictim cfg.l2cacheAssoc (l2SetLrus s idx) = v) :
    (l2cache_access cfg s addr).2.l2_tag_storage
      = s.l2_tag_storage.set idx
          ((l2SetTags s idx).set v (decodeTag cfg.blocksize cfg.l2cacheSets addr))
    ∧ (l2cache_access cfg s addr).2.l2_lru_storage
      = s.l2_lru_storage.set idx ((bumpL2 (l2SetLrus s idx)).set v 0) := by
  have hmiss2 : hitWay cfg.l2cacheAssoc
      (s.l2_tag_storage.getD (decodeIndex cfg.blocksize cfg.l2cacheSets addr) [])
      (decodeTag cfg.blocksize cfg.l2cacheSets addr) = none := by
    rw [hdec]; exact hmiss
  rw [l2_miss_eq cfg s addr hs hmiss2]
  constructor
  · show s.l2_tag_storage.set (decodeIndex cfg.blocksize cfg.l2cacheSets addr)
        ((s.l2_tag_storage.getD (decodeIndex cfg.blocksize cfg.l2cacheSets addr) []).set
          (findVictim cfg.l2cacheAssoc
            (s.l2_lru_storage.getD (decodeIndex cfg.blocksize cfg.l2cacheSets addr) []))
          (decodeTag cfg.blocksize cfg.l2cacheSets addr)) = _
    rw [hdec]
    show s.l2_tag_storage.set idx
        ((l2SetTags s idx).set (findVictim cfg.l2cacheAssoc (l2SetLrus s idx))
          (decodeTag cfg.blocksize cfg.l2cacheSets addr)) = _
    rw [hvict]
  · show s.l2_lru_storage.set (decodeIndex cfg.blocksize cfg.l2cacheSets addr)
        (List.set (bumpL2 (s.l2_lru_storage.getD (decodeIndex cfg.blocksize cfg.l2cacheSets addr) []))
          (findVictim cfg.l2cacheAssoc
            (s.l2_lru_storage.getD (decodeIndex cfg.blocksize cfg.l2cacheSets addr) [])) 0) = _
    rw [hdec]
    show s.l2_lru_storage.set idx
        ((bumpL2 (l2SetLrus s idx)).set (findVictim cfg.l2cacheAssoc (l2SetLrus s idx)) 0) = _
    rw [hvict]

theorem l2_hit_state (cfg : Config) (s : CacheState) (addr : Nat) (idx j : Nat)
    (hs : cfg.l2cacheSets ≠ 0)
    (hdec : decodeIndex cfg.blocksize cfg.l2cacheSets addr = idx)
    (hhit : hitWay cfg.l2cacheAssoc (l2SetTags s idx)
      (decodeTag cfg.blocksize cfg.l2cacheSets addr) = some j) :
    (l2cache_access cfg s addr).2.l2_tag_storage = s.l2_tag_storage
    ∧ (l2cache_access cfg s addr).2.l2_lru_storage
      = s.l2_lru_storage.set idx ((bumpL2 (l2SetLrus s idx)).set j 0) := by
  have hhit2 : hitWay cfg.l2cacheAssoc
      (s.l2_tag_storage.getD (decodeIndex cfg.blocksize cfg.l2cacheSets addr) [])
      (decodeTag cfg.blocksize cfg.l2cacheSets addr) = some j := by
    rw [hdec]; exact hhit
  rw [l2_hit_eq cfg s addr j hs hhit2]
  constructor
  · rfl
  · show s.l2_lru_storage.set (decodeIndex cfg.blocksize cfg.l2cacheSets addr)
        (List.set (bumpL2 (s.l2_lru_storage.getD (decodeIndex cfg.blocksize cfg.l2cacheSets addr) []))
          j 0) = _
    rw [hdec]
    rfl

/-- The two L2 storage arrays have their configured outer length and the
tracked set has the fill shape `ts`. -/
def L2SetInv (cfg : Config) (idx : Nat) (ts : List Nat) (s : CacheState) : Prop :=
  s.l2_tag_storage.length = cfg.l2cacheSets
  ∧ s.l2_lru_storage.length = cfg.l2cacheSets
  ∧ FillInv cfg.l2cacheAssoc ts (l2SetTags s idx) (l2SetLrus s idx)

theorem l2_init_inv (cfg : Config) (idx : Nat) (hidx : idx < cfg.l2cacheSets) :
    L2SetInv cfg idx [] (init_cache cfg) := by
  have htags : l2SetTags (init_cache cfg) idx = List.replicate cfg.l2cacheAssoc 0 := by
    unfold l2SetTags init_cache
    exact getD_replicate _ [] hidx
  have hlrus : l2SetLrus (init_cache cfg) idx = List.replicate cfg.l2cacheAssoc 0 := by
    unfold l2SetLrus init_cache
    exact getD_replicate _ [] hidx
  refine ⟨List.length_replicate _ _, List.length_replicate _ _, ?_⟩
  rw [htags, hlrus]
  exact ⟨List.length_replicate _ _, List.length_replicate _ _, Nat.zero_le _,
    fun i hi => absurd hi (by simp),
    fun i h1 h2 => getD_replicate 0 0 h2,
    fun i hi => absurd hi (by simp),
    fun i h1 h2 => by rw [getD_replicate 0 0 h2]; rfl⟩

theorem l2_fill_state_step (cfg : Config) (s : CacheState) (addr : Nat) (idx : Nat) (ts : List Nat)
    (hs : cfg.l2cacheSets ≠ 0)
    (hidx : idx < cfg.l2cacheSets) (hNM : cfg.l2cacheAssoc < UINT32_MAX)
    (hdec : decodeIndex cfg.blocksize cfg.l2cacheSets addr = idx)
    (hinv : L2SetInv cfg idx ts s)
    (hk : ts.length < cfg.l2cacheAssoc)
    (hfresh : ∀ i, i < ts.length → ts.getD i 0 ≠ decodeTag cfg.blocksize cfg.l2cacheSets addr) :
    L2SetInv cfg idx (ts ++ [decodeTag cfg.blocksize cfg.l2cacheSets addr])
      (l2cache_access cfg s addr).2 := by
  obtain ⟨hL1, hL2s, hfi⟩ := hinv
  have hcore := fill_step_core cfg.l2cacheAssoc ts (l2SetTags s idx) (l2SetLrus s idx)
    (decodeTag cfg.blocksize cfg.l2cacheSets addr) bumpL2 (bumpL2_length _)
    (fun i h1 h2 => bumpL2_getD _ i h1 h2) hfi hk hNM
    (decodeTag_ne_zero _ _ _) hfresh
  have hms := l2_miss_state cfg s addr idx ts.length hs hdec hcore.1 hcore.2.1
  refine ⟨?_, ?_, ?_⟩
  · rw [hms.1, List.length_set]; exact hL1
  · rw [hms.2, List.length_set]; exact hL2s
  · unfold l2SetTags l2SetLrus
    rw [hms.1, hms.2,
      getD_set_self _ _ _ [] (by rw [hL1]; exact hidx),
      getD_set_self _ _ _ [] (by rw [hL2s]; exact hidx)]
    exact hcore.2.2

theorem l2_fill_run (cfg : Config) (idx : Nat) (addrs : List Nat)
    (hs : cfg.l2cacheSets ≠ 0)
    (hidx : idx < cfg.l2cacheSets) (hNM : cfg.l2cacheAssoc < UINT32_MAX)
    (hlen : cfg.l2cacheAssoc < addrs.length)
    (hmap : ∀ i, i < addrs.length →
      decodeIndex cfg.blocksize cfg.l2cacheSets (addrs.getD i 0) = idx)
    (hdist : ∀ a b, a < b → b < addrs.length →
      decodeTag cfg.blocksize cfg.l2cacheSets (addrs.getD a 0)
        ≠ decodeTag cfg.blocksize cfg.l2cacheSets (addrs.getD b 0)) :
    ∀ k, k ≤ cfg.l2cacheAssoc →
      L2SetInv cfg idx ((addrs.take k).map (decodeTag cfg.blocksize cfg.l2cacheSets))
        (runL2 cfg (init_cache cfg) (addrs.take k)) := by
  intro k
  induction k with
  | zero => intro _; exact l2_init_inv cfg idx hidx
  | succ k ih =>
    intro hk1
    have hk : k ≤ cfg.l2cacheAssoc := by omega
    have hklt : k < addrs.length := by omega
    have htklen : (addrs.take k).length = k := by
      rw [List.length_take]; omega
    rw [take_succ_getD addrs k 0 hklt, runL2_append, List.map_append]
    refine l2_fill_state_step cfg _ _ idx _ hs hidx hNM (hmap k hklt) (ih hk) ?_ ?_
    · rw [List.length_map, htklen]; omega
    · intro i hi
      have hilen : i < k := by
        rw [List.length_map, htklen] at hi; exact hi
      rw [getD_map_lt _ _ 0 (by rw [htklen]; omega), getD_take addrs k i 0 hilen]
      exact hdist i k hilen hklt

end CacheSim

namespace CacheSim

theorem l2_lru_main (cfg : Config) (idx : Nat) (addrs : List Nat)
    (hs : cfg.l2cacheSets ≠ 0)
    (hpos : 0 < cfg.l2cacheAssoc) (hNM : cfg.l2cacheAssoc < UINT32_MAX)
    (hidx : idx < cfg.l2cacheSets)
    (hlen : addrs.length = cfg.l2cacheAssoc + 1)
    (hmap : ∀ i, i < addrs.length →
      decodeIndex cfg.blocksize cfg.l2cacheSets (addrs.getD i 0) = idx)
    (hdist : ∀ a b, a < b → b < addrs.length →
      decodeTag cfg.blocksize cfg.l2cacheSets (addrs.getD a 0)
        ≠ decodeTag cfg.blocksize cfg.l2cacheSets (addrs.getD b 0)) :
    (l2SetTags (runL2 cfg (init_cache cfg) (addrs.take cfg.l2cacheAssoc)) idx).getD 0 0
        = decodeTag cfg.blocksize cfg.l2cacheSets (addrs.getD 0 0)
    ∧ (∀ w, w < cfg.l2cacheAssoc →
        (l2SetTags (runL2 cfg (init_cache cfg) addrs) idx).getD w 0
          ≠ decodeTag cfg.blocksize cfg.l2cacheSets (addrs.getD 0 0))
    ∧ (∀ k, 1 ≤ k → k ≤ cfg.l2cacheAssoc → ∃ w, w < cfg.l2cacheAssoc ∧
        (l2SetTags (runL2 cfg (init_cache cfg) addrs) idx).getD w 0
          = decodeTag cfg.blocksize cfg.l2cacheSets (addrs.getD k 0))
    ∧ (∀ j, 1 ≤ j → j < cfg.l2cacheAssoc →
        (∃ w, w < cfg.l2cacheAssoc ∧
          (l2SetTags (runL2 cfg (init_cache cfg)
              (addrs.take cfg.l2cacheAssoc ++ [addrs.getD j 0] ++ addrs.drop cfg.l2cacheAssoc)) idx).getD w 0
            = decodeTag cfg.blocksize cfg.l2cacheSets (addrs.getD j 0))
        ∧ (∀ w, w < cfg.l2cacheAssoc →
          (l2SetTags (runL2 cfg (init_cache cfg)
              (addrs.take cfg.l2cacheAssoc ++ [addrs.getD j 0] ++ addrs.drop cfg.l2cacheAssoc)) idx).getD w 0
            ≠ decodeTag cfg.blocksize cfg.l2cacheSets (addrs.getD 0 0))) := by
  set N := cfg.l2cacheAssoc with hNdef
  set f := decodeTag cfg.blocksize cfg.l2cacheSets with hfdef
  set ts := (addrs.take N).map f with htsdef
  set sN := runL2 cfg (init_cache cfg) (addrs.take N) with hsNdef
  have hNlt : N < addrs.length := by omega
  have hInv : L2SetInv cfg idx ts sN :=
    l2_fill_run cfg idx addrs hs hidx hNM (by omega) hmap hdist N (Nat.le_refl N)
  have htklen : (addrs.take N).length = N := by rw [List.length_take]; omega
  have hts_len : ts.length = N := by rw [htsdef, List.length_map, htklen]
  have hts_getD : ∀ i, i < N → ts.getD i 0 = f (addrs.getD i 0) := by
    intro i hi
    rw [htsdef, getD_map_lt _ _ 0 (by rw [htklen]; omega), getD_take addrs N i 0 hi]
  have hfreshN : ∀ i, i < ts.length → ts.getD i 0 ≠ f (addrs.getD N 0) := by
    intro i hi
    rw [hts_getD i (by omega)]
    exact hdist i N (by omega) (by omega)
  have hcoreE := evict_from_full_core N ts (l2SetTags sN idx) (l2SetLrus sN idx)
    (f (addrs.getD N 0)) hInv.2.2 hts_len hpos hfreshN
  have haddrs : addrs = addrs.take N ++ [addrs.getD N 0] := by
    conv_lhs => rw [← List.take_length (l := addrs)]
    rw [hlen]
    exact take_succ_getD addrs N 0 hNlt
  have hrun : runL2 cfg (init_cache cfg) addrs = (l2cache_access cfg sN (addrs.getD N 0)).2 := by
    conv_lhs => rw [haddrs]
    rw [runL2_append]
    rfl
  have hmsE := l2_miss_state cfg sN (addrs.getD N 0) idx 0 hs
    (hmap N hNlt) hcoreE.1 hcoreE.2
  have hTagsF : l2SetTags (l2cache_access cfg sN (addrs.getD N 0)).2 idx
      = (l2SetTags sN idx).set 0 (f (addrs.getD N 0)) := by
    unfold l2SetTags
    rw [hmsE.1, getD_set_self _ _ _ [] (by rw [hInv.1]; exact hidx)]
    rfl
  have htagsLen : (l2SetTags sN idx).length = N := hInv.2.2.tagsLen
  have habsence : ∀ w, w < N →
      ((l2SetTags sN idx).set 0 (f (addrs.getD N 0))).getD w 0 ≠ f (addrs.getD 0 0) := by
    intro w hw
    by_cases hw0 : w = 0
    · subst hw0
      rw [getD_set_self _ _ _ 0 (by omega)]
      exact (hdist 0 N hpos (by omega)).symm
    · rw [getD_set_ne _ _ 0 (fun h => hw0 h.symm), hInv.2.2.tagsLow w (by omega),
        hts_getD w hw]
      exact (hdist 0 w (by omega) (by omega)).symm
  refine ⟨?_, ?_, ?_, ?_⟩
  · rw [hInv.2.2.tagsLow 0 (by omega), hts_getD 0 (by omega)]
  · intro w hw
    rw [hrun, hTagsF]
    exact habsence w hw
  · intro k hk1 hkN
    rw [hrun, hTagsF]
    by_cases hkEq : k = N
    · subst hkEq
      exact ⟨0, by omega, by rw [getD_set_self _ _ _ 0 (by omega)]⟩
    · refine ⟨k, by omega, ?_⟩
      rw [getD_set_ne _ _ 0 (by omega), hInv.2.2.tagsLow k (by omega),
        hts_getD k (by omega)]
  · intro j hj1 hjN
    have hjlen : j < addrs.length := by omega
    have hdist' : ∀ a b, a < b → b < ts.length → ts.getD a 0 ≠ ts.getD b 0 := by
      intro a b hab hb
      rw [hts_getD a (by omega), hts_getD b (by omega)]
      exact hdist a b hab (by omega)
    have hcoreH := full_hit_core N ts (l2SetTags sN idx) (l2SetLrus sN idx) j bumpL2
      (bumpL2_length _) (fun i h1 h2 => bumpL2_getD _ i h1 h2)
      hInv.2.2 hts_len hNM (by omega) hdist'
    have hhitJ : hitWay N (l2SetTags sN idx) (f (addrs.getD j 0)) = some j := by
      rw [← hts_getD j (by omega)]
      exact hcoreH.1
    have hhs := l2_hit_state cfg sN (addrs.getD j 0) idx j hs (hmap j hjlen) hhitJ
    have hTagsH : l2SetTags (l2cache_access cfg sN (addrs.getD j 0)).2 idx = l2SetTags sN idx := by
      unfold l2SetTags
      rw [hhs.1]
    have hLrusH : l2SetLrus (l2cache_access cfg sN (addrs.getD j 0)).2 idx
        = (bumpL2 (l2SetLrus sN idx)).set j 0 := by
      unfold l2SetLrus
      rw [hhs.2, getD_set_self _ _ _ [] (by rw [hInv.2.1]; exact hidx)]
      rfl
    have hhiJ : HitInv N j (l2SetLrus (l2cache_access cfg sN (addrs.getD j 0)).2 idx) := by
      rw [hLrusH]
      exact hcoreH.2
    have hL1H : (l2cache_access cfg sN (addrs.getD j 0)).2.l2_tag_storage.length
        = cfg.l2cacheSets := by
      rw [hhs.1]
      exact hInv.1
    have hmissH : hitWay N (l2SetTags (l2cache_access cfg sN (addrs.getD j 0)).2 idx)
        (f (addrs.getD N 0)) = none := by
      rw [hTagsH]
      exact hcoreE.1
    have hvictH : findVictim N (l2SetLrus (l2cache_access cfg sN (addrs.getD j 0)).2 idx) = 0 :=
      evict_after_hit_core N j _ hhiJ hj1 hjN
    have hmsH := l2_miss_state cfg (l2cache_access cfg sN (addrs.getD j 0)).2 (addrs.getD N 0)
      idx 0 hs (hmap N hNlt) hmissH hvictH
    have hdrop : addrs.drop N = [addrs.getD N 0] := drop_last_getD addrs N 0 hlen
    have hrun2 : runL2 cfg (init_cache cfg)
        (addrs.take N ++ [addrs.getD j 0] ++ addrs.drop N)
        = (l2cache_access cfg (l2cache_access cfg sN (addrs.getD j 0)).2 (addrs.getD N 0)).2 := by
      rw [hdrop, runL2_append, runL2_append]
      rfl
    have hTagsF2 : l2SetTags (l2cache_access cfg (l2cache_access cfg sN (addrs.getD j 0)).2
        (addrs.getD N 0)).2 idx = (l2SetTags sN idx).set 0 (f (addrs.getD N 0)) := by
      unfold l2SetTags
      rw [hmsH.1, getD_set_self _ _ _ [] (by rw [hL1H]; exact hidx)]
      rw [hTagsH]
      rfl
    constructor
    · refine ⟨j, by omega, ?_⟩
      rw [hrun2, hTagsF2, getD_set_ne _ _ 0 (by omega),
        hInv.2.2.tagsLow j (by omega), hts_getD j (by omega)]
    · intro w hw
      rw [hrun2, hTagsF2]
      exact habsence w hw

end CacheSim

namespace CacheSim

/-- C5: LRU correctness.  For a cache level of associativity `N` (first
conjunct: the D-cache with L2 disabled; second conjunct: the L2 cache),
starting from a fresh hierarchy, accessing `N+1` addresses with pairwise
distinct tags that all decode to set `idx`: after the first `N` accesses
the first block occupies way 0; the `(N+1)`-th access evicts exactly the
first-accessed block (its tag is gone, every other accessed tag is still
resident); and if any of blocks `1..N-1` is re-accessed just before the
`(N+1)`-th access, the re-accessed block survives and the first block is
still the one evicted. -/
theorem c5_lru_correctness (cfg : Config) (idx : Nat) (addrs : List Nat) :
    (cfg.dcacheSets ≠ 0 → cfg.l2cacheSets = 0 →
      0 < cfg.dcacheAssoc → cfg.dcacheAssoc < UINT32_MAX → idx < cfg.dcacheSets →
      addrs.length = cfg.dcacheAssoc + 1 →
      (∀ i, i < addrs.length →
        decodeIndex cfg.blocksize cfg.dcacheSets (addrs.getD i 0) = idx) →
      (∀ a b, a < b → b < addrs.length →
        decodeTag cfg.blocksize cfg.dcacheSets (addrs.getD a 0)
          ≠ decodeTag cfg.blocksize cfg.dcacheSets (addrs.getD b 0)) →
      (dSetTags (runD cfg (init_cache cfg) (addrs.take cfg.dcacheAssoc)) idx).getD 0 0
          = decodeTag cfg.blocksize cfg.dcacheSets (addrs.getD 0 0)
      ∧ (∀ w, w < cfg.dcacheAssoc →
          (dSetTags (runD cfg (init_cache cfg) addrs) idx).getD w 0
            ≠ decodeTag cfg.blocksize cfg.dcacheSets (addrs.getD 0 0))
      ∧ (∀ k, 1 ≤ k → k ≤ cfg.dcacheAssoc → ∃ w, w < cfg.dcacheAssoc ∧
          (dSetTags (runD cfg (init_cache cfg) addrs) idx).getD w 0
            = decodeTag cfg.blocksize cfg.dcacheSets (addrs.getD k 0))
      ∧ (∀ j, 1 ≤ j → j < cfg.dcacheAssoc →
          (∃ w, w < cfg.dcacheAssoc ∧
            (dSetTags (runD cfg (init_cache cfg)
                (addrs.take cfg.dcacheAssoc ++ [addrs.getD j 0] ++ addrs.drop cfg.dcacheAssoc)) idx).getD w 0
              = decodeTag cfg.blocksize cfg.dcacheSets (addrs.getD j 0))
          ∧ (∀ w, w < cfg.dcacheAssoc →
            (dSetTags (runD cfg (init_cache cfg)
                (addrs.take cfg.dcacheAssoc ++ [addrs.getD j 0] ++ addrs.drop cfg.dcacheAssoc)) idx).getD w 0
              ≠ decodeTag cfg.blocksize cfg.dcacheSets (addrs.getD 0 0))))
    ∧ (cfg.l2cacheSets ≠ 0 →
      0 < cfg.l2cacheAssoc → cfg.l2cacheAssoc < UINT32_MAX → idx < cfg.l2cacheSets →
      addrs.length = cfg.l2cacheAssoc + 1 →
      (∀ i, i < addrs.length →
        decodeIndex cfg.blocksize cfg.l2cacheSets (addrs.getD i 0) = idx) →
      (∀ a b, a < b → b < addrs.length →
        decodeTag cfg.blocksize cfg.l2cacheSets (addrs.getD a 0)
          ≠ decodeTag cfg.blocksize cfg.l2cacheSets (addrs.getD b 0)) →
      (l2SetTags (runL2 cfg (init_cache cfg) (addrs.take cfg.l2cacheAssoc)) idx).getD 0 0
          = decodeTag cfg.blocksize cfg.l2cacheSets (addrs.getD 0 0)
      ∧ (∀ w, w < cfg.l2cacheAssoc →
          (l2SetTags (runL2 cfg (init_cache cfg) addrs) idx).getD w 0
            ≠ decodeTag cfg.blocksize cfg.l2cacheSets (addrs.getD 0 0))
      ∧ (∀ k, 1 ≤ k → k ≤ cfg.l2cacheAssoc → ∃ w, w < cfg.l2cacheAssoc ∧
          (l2SetTags (runL2 cfg (init_cache cfg) addrs) idx).getD w 0
            = decodeTag cfg.blocksize cfg.l2cacheSets (addrs.getD k 0))
      ∧ (∀ j, 1 ≤ j → j < cfg.l2cacheAssoc →
          (∃ w, w < cfg.l2cacheAssoc ∧
            (l2SetTags (runL2 cfg (init_cache cfg)
                (addrs.take cfg.l2cacheAssoc ++ [addrs.getD j 0] ++ addrs.drop cfg.l2cacheAssoc)) idx).getD w 0
              = decodeTag cfg.blocksize cfg.l2cacheSets (addrs.getD j 0))
          ∧ (∀ w, w < cfg.l2cacheAssoc →
            (l2SetTags (runL2 cfg (init_cache cfg)
                (addrs.take cfg.l2cacheAssoc ++ [addrs.getD j 0] ++ addrs.drop cfg.l2cacheAssoc)) idx).getD w 0
              ≠ decodeTag cfg.blocksize cfg.l2cacheSets (addrs.getD 0 0)))) :=
  ⟨fun hd hl2 hpos hNM hidx hlen hmap hdist =>
      d_lru_main cfg idx addrs hd hl2 hpos hNM hidx hlen hmap hdist,
   fun hs hpos hNM hidx hlen hmap hdist =>
      l2_lru_main cfg idx addrs hs hpos hNM hidx hlen hmap hdist⟩

/-- Witness configuration: 1-set 2-way D-cache, no L2. -/
def cfgW5d : Config :=
  { icacheSets := 0, icacheAssoc := 0, icacheHitTime := 0,
    dcacheSets := 1, dcacheAssoc := 2, dcacheHitTime := 1,
    l2cacheSets := 0, l2cacheAssoc := 0, l2cacheHitTime := 0,
    inclusive := 0, blocksize := 1, memspeed := 50 }

/-- Witness configuration: 1-set 2-way L2 only. -/
def cfgW5l : Config :=
  { icacheSets := 0, icacheAssoc := 0, icacheHitTime := 0,
    dcacheSets := 0, dcacheAssoc := 0, dcacheHitTime := 0,
    l2cacheSets := 1, l2cacheAssoc := 2, l2cacheHitTime := 5,
    inclusive := 0, blocksize := 1, memspeed := 50 }

theorem c5_lru_correctness_witness :
    (∀ w, w < cfgW5d.dcacheAssoc →
      (dSetTags (runD cfgW5d (init_cache cfgW5d) [0, 1, 2]) 0).getD w 0
        ≠ decodeTag cfgW5d.blocksize cfgW5d.dcacheSets (([0, 1, 2] : List Nat).getD 0 0))
    ∧ (∀ w, w < cfgW5l.l2cacheAssoc →
      (l2SetTags (runL2 cfgW5l (init_cache cfgW5l) [0, 1, 2]) 0).getD w 0
        ≠ decodeTag cfgW5l.blocksize cfgW5l.l2cacheSets (([0, 1, 2] : List Nat).getD 0 0)) :=
  ⟨((c5_lru_correctness cfgW5d 0 [0, 1, 2]).1 (by decide) rfl (by decide) (by decide)
      (by decide) (by decide)
      (fun i hi => (by decide :
        ∀ i, i < 3 → decodeIndex cfgW5d.blocksize cfgW5d.dcacheSets
          (([0, 1, 2] : List Nat).getD i 0) = 0) i hi)
      (fun a b hab hb => (by decide :
        ∀ b, b < 3 → ∀ a, a < b →
          decodeTag cfgW5d.blocksize cfgW5d.dcacheSets (([0, 1, 2] : List Nat).getD a 0)
            ≠ decodeTag cfgW5d.blocksize cfgW5d.dcacheSets (([0, 1, 2] : List Nat).getD b 0))
        b hb a hab)).2.1,
   ((c5_lru_correctness cfgW5l 0 [0, 1, 2]).2 (by decide) (by decide) (by decide)
      (by decide) (by decide)
      (fun i hi => (by decide :
        ∀ i, i < 3 → decodeIndex cfgW5l.blocksize cfgW5l.l2cacheSets
          (([0, 1, 2] : List Nat).getD i 0) = 0) i hi)
      (fun a b hab hb => (by decide :
        ∀ b, b < 3 → ∀ a, a < b →
          decodeTag cfgW5l.blocksize cfgW5l.l2cacheSets (([0, 1, 2] : List Nat).getD a 0)
            ≠ decodeTag cfgW5l.blocksize cfgW5l.l2cacheSets (([0, 1, 2] : List Nat).getD b 0))
        b hb a hab)).2.1⟩

end CacheSim
